import Mathlib

set_option maxHeartbeats 1000000

/- Shallow embedding of src/api/index.py (Escrow Shield Telegram escrow bot).
   Pure helpers are translated as Lean functions; the SQLite tables and the
   per-user conversational session dictionaries become explicit state threaded
   through the handlers; network calls (OKX REST API) and wall-clock time are
   an explicit environment argument.  A Python exception escaping a handler is
   modelled by a `raised` marker in the handler output (python-telegram-bot
   catches handler exceptions; database writes committed before the raise
   persist, writes after it never happen). -/

/-- Parsed JSON values, as produced by `requests.Response.json()`.  Numeric
    literals are restricted to integers, which covers every payload the
    modelled code paths inspect (OKX renders balances and ids as strings). -/
inductive JsonVal where
  | null
  | bool (b : Bool)
  | num (n : Int)
  | str (s : String)
  | arr (elems : List JsonVal)
  | obj (fields : List (String × JsonVal))

/-- Python `str.strip()` (also the whitespace tolerance of `Decimal(...)`),
    over the character list so the kernel can evaluate it. -/
def pyStrip (s : String) : String :=
  ⟨((s.data.dropWhile Char.isWhitespace).reverse.dropWhile Char.isWhitespace).reverse⟩

/-- Python `str.upper()` (ASCII payloads only), kernel-evaluable. -/
def pyUpper (s : String) : String := ⟨s.data.map Char.toUpper⟩

/-- Python slicing `s[:n]` (by characters), kernel-evaluable. -/
def strTake (s : String) (n : Nat) : String := ⟨s.data.take n⟩

def strDrop (s : String) (n : Nat) : String := ⟨s.data.drop n⟩

def strLen (s : String) : Nat := s.data.length

/-- First-match association-list lookup (Python dict access on parsed JSON
    without duplicate keys). -/
def assocGet {α β : Type} [DecidableEq α] (k : α) : List (α × β) → Option β
  | [] => none
  | (k', v) :: rest => if k' = k then some v else assocGet k rest

/-- Python truthiness of a parsed-JSON value. -/
def pyTruthy : JsonVal → Bool
  | .null => false
  | .bool b => b
  | .num n => n != 0
  | .str s => !s.data.isEmpty
  | .arr l => !l.isEmpty
  | .obj l => !l.isEmpty

/-- Python `x.get(k)`: `none` when the key is absent; an AttributeError when
    `x` is not a dict (modelled as `.error`). -/
def pyGet : JsonVal → String → Except String (Option JsonVal)
  | .obj fs, k => .ok (assocGet k fs)
  | _, _ => .error "AttributeError"

mutual

/-- Python `repr` of a parsed-JSON value (string escaping not modelled; the
    values reaching it in the modelled flows contain no quotes). -/
def pyRepr : JsonVal → String
  | .null => "None"
  | .bool b => if b then "True" else "False"
  | .num n => toString n
  | .str s => "'" ++ s ++ "'"
  | .arr l => "[" ++ pyReprList l ++ "]"
  | .obj l => "\x7b" ++ pyReprFields l ++ "\x7d"

def pyReprList : List JsonVal → String
  | [] => ""
  | [x] => pyRepr x
  | x :: xs => pyRepr x ++ ", " ++ pyReprList xs

def pyReprFields : List (String × JsonVal) → String
  | [] => ""
  | [(k, v)] => "'" ++ k ++ "': " ++ pyRepr v
  | (k, v) :: xs => "'" ++ k ++ "': " ++ pyRepr v ++ ", " ++ pyReprFields xs
end

/-- Python `str` applied to a parsed-JSON value (as in `str(val)` before the
    decimal parse). -/
def pyStr : JsonVal → String
  | .str s => s
  | v => pyRepr v

mutual

/-- `json.dumps` with default separators.  String escaping is not modelled:
    the serialized bodies of the modelled flows contain no escaped chars. -/
def jsonDump : JsonVal → String
  | .null => "null"
  | .bool b => if b then "true" else "false"
  | .num n => toString n
  | .str s => "\"" ++ s ++ "\""
  | .arr l => "[" ++ jsonDumpList l ++ "]"
  | .obj l => "\x7b" ++ jsonDumpFields l ++ "\x7d"

def jsonDumpList : List JsonVal → String
  | [] => ""
  | [x] => jsonDump x
  | x :: xs => jsonDump x ++ ", " ++ jsonDumpList xs

def jsonDumpFields : List (String × JsonVal) → String
  | [] => ""
  | [(k, v)] => "\"" ++ k ++ "\": " ++ jsonDump v
  | (k, v) :: xs => "\"" ++ k ++ "\": " ++ jsonDump v ++ ", " ++ jsonDumpFields xs
end

/-- Python `decimal.Decimal` finite values: coefficient times a power of ten,
    keeping the number of stored fractional digits (so `"50.5"` is `505E-1`). -/
structure PyDecimal where
  mant : Int
  exp : Int
deriving DecidableEq

def digitsVal (l : List Char) : Nat :=
  l.foldl (fun acc c => acc * 10 + (c.toNat - '0'.toNat)) 0

def parseSign : List Char → Int × List Char
  | '+' :: r => (1, r)
  | '-' :: r => (-1, r)
  | r => (1, r)

/-- `Decimal(s)` construction, restricted to the finite-number grammar
    `sign? digits [. digits] [(e|E) sign? digits]` with surrounding
    whitespace ignored.  The special values (NaN, Infinity) do not occur in
    the modelled flows. -/
def parseDecimal (s : String) : Option PyDecimal :=
  let cs := (pyStrip s).data
  let (sg, cs) := parseSign cs
  let (ip, cs) := cs.span Char.isDigit
  let (fp, cs) :=
    match cs with
    | '.' :: r => r.span Char.isDigit
    | _ => ([], cs)
  if ip.isEmpty && fp.isEmpty then none
  else
    let mant : Int := sg * (digitsVal (ip ++ fp) : Int)
    let fracLen : Int := (fp.length : Int)
    match cs with
    | [] => some ⟨mant, -fracLen⟩
    | e :: r =>
      if e = 'e' || e = 'E' then
        let (esg, r) := parseSign r
        let (ed, r) := r.span Char.isDigit
        if ed.isEmpty || !r.isEmpty then none
        else some ⟨mant, esg * (digitsVal ed : Int) - fracLen⟩
      else none

/-- `try: return Decimal(s) except (InvalidOperation, TypeError, ValueError):
    return None` (src line 167). -/
def safe_decimal (s : String) : Option PyDecimal := parseDecimal s

/-- `str(Decimal(...))` for ordinary plainly written values; inputs given in
    exponent form are rendered in Python's E-style form approximately. -/
def PyDecimal.render (d : PyDecimal) : String :=
  let sgn := if d.mant < 0 then "-" else ""
  let digits := toString d.mant.natAbs
  if d.exp = 0 then sgn ++ digits
  else if 0 < d.exp then sgn ++ digits ++ "E+" ++ toString d.exp
  else
    let k := (-d.exp).toNat
    if k < strLen digits then
      sgn ++ strTake digits (strLen digits - k) ++ "." ++ strDrop digits (strLen digits - k)
    else
      sgn ++ "0." ++ String.mk (List.replicate (k - strLen digits) '0') ++ digits

/-- `amount <= 0` on a Decimal (equivalently: non-positive coefficient).  The
    preceding `not amount` test (a zero Decimal is falsy) is subsumed. -/
def PyDecimal.isNonPos (d : PyDecimal) : Bool := d.mant ≤ 0

/-- Value comparison of two decimals, by bringing them to the common
    exponent. -/
def PyDecimal.le (a b : PyDecimal) : Bool :=
  let m := min a.exp b.exp
  a.mant * (10 : Int) ^ (a.exp - m).toNat ≤ b.mant * (10 : Int) ^ (b.exp - m).toNat

/-- Exact sum of two decimals at the common exponent. -/
def PyDecimal.add (a b : PyDecimal) : PyDecimal :=
  let m := min a.exp b.exp
  ⟨a.mant * (10 : Int) ^ (a.exp - m).toNat + b.mant * (10 : Int) ^ (b.exp - m).toNat, m⟩

/-- One iteration of the inner loop of `find_usdt_balance` (src lines
    182-186): `.ok (some r)` means the loop body returned `r`, `.ok none`
    means it fell through to the next detail, `.error` means it raised an
    AttributeError (`d.get` on a non-dict detail, or `.upper()` on a
    non-string `ccy` value). -/
def detailVerdict : JsonVal → Except String (Option (Option PyDecimal))
  | .obj fs =>
    (match (assocGet "ccy" fs).getD (.str "") with
     | .str cs =>
       if pyUpper cs = "USDT" then
         let a := (assocGet "availBal" fs).getD .null
         let val := if pyTruthy a then a else (assocGet "cashBal" fs).getD .null
         if pyTruthy val then .ok (some (safe_decimal (pyStr val)))
         else .ok none
       else .ok none
     | _ => .error "AttributeError")
  | _ => .error "AttributeError"

/-- Inner loop of `find_usdt_balance`: scan the detail records of one
    account entry, propagating the first return or raise. -/
def scanDetails : List JsonVal → Except String (Option (Option PyDecimal))
  | [] => .ok none
  | d :: rest =>
    match detailVerdict d with
    | .error m => .error m
    | .ok (some r) => .ok (some r)
    | .ok none => scanDetails rest

/-- The detail list an account entry contributes: only dict entries with a
    list-valued (or absent) `details` field contribute (src lines 179-181). -/
def entryDetails : JsonVal → Option (List JsonVal)
  | .obj efs =>
    (match (assocGet "details" efs).getD (.arr []) with
     | .arr ds => some ds
     | _ => none)
  | _ => none

/-- One iteration of the outer loop of `find_usdt_balance`: non-contributing
    entries fall through, contributing ones run the detail scan. -/
def entryVerdict (e : JsonVal) : Except String (Option (Option PyDecimal)) :=
  match entryDetails e with
  | some ds => scanDetails ds
  | none => .ok none

/-- Outer loop of `find_usdt_balance` (src lines 178-186): iterate the account
    entries, propagating the first return or raise. -/
def scanEntries : List JsonVal → Except String (Option (Option PyDecimal))
  | [] => .ok none
  | e :: rest =>
    match entryVerdict e with
    | .error m => .error m
    | .ok (some r) => .ok (some r)
    | .ok none => scanEntries rest

/-- `find_usdt_balance` (src lines 173-187).  `.ok none` is the "unknown"
    result; `.error` models a raised exception. -/
def find_usdt_balance (parsed_json : JsonVal) : Except String (Option PyDecimal) :=
  match parsed_json with
  | .obj fs =>
    let data0 := (assocGet "data" fs).getD .null
    let data := if pyTruthy data0 then data0 else .arr []
    match data with
    | .arr entries =>
      match scanEntries entries with
      | .error m => .error m
      | .ok (some r) => .ok r
      | .ok none => .ok none
    | _ => .ok none
  | _ => .ok none

/- ### Exchange Client signing (src lines 120-136)

`okx_sign` composes the message `timestamp ++ method.upper() ++ request_path
++ body`, takes HMAC-SHA256 with the API secret, and Base64-encodes the
digest; `okx_headers` serializes the optional JSON body, signs, and attaches
the headers.  The hash is implemented concretely (bytes as `Nat`). -/

/-- UTF-8 encoding of a string as a byte list (as `str.encode('utf-8')`). -/
def utf8Char (c : Char) : List Nat :=
  let n := c.toNat
  if n < 128 then [n]
  else if n < 2048 then [192 + n / 64, 128 + n % 64]
  else if n < 65536 then [224 + n / 4096, 128 + n / 64 % 64, 128 + n % 64]
  else [240 + n / 262144, 128 + n / 4096 % 64, 128 + n / 64 % 64, 128 + n % 64]

def utf8Encode (s : String) : List Nat := s.data.flatMap utf8Char

def w32 (n : Nat) : Nat := n % 4294967296

/-- Right rotation of a 32-bit word (operands already reduced mod 2^32). -/
def rotr (n x : Nat) : Nat := x / 2 ^ n + x % 2 ^ n * 2 ^ (32 - n)

def shr (n x : Nat) : Nat := x / 2 ^ n

def sig0 (x : Nat) : Nat := rotr 7 x ^^^ rotr 18 x ^^^ shr 3 x

def sig1 (x : Nat) : Nat := rotr 17 x ^^^ rotr 19 x ^^^ shr 10 x

def bigSig0 (x : Nat) : Nat := rotr 2 x ^^^ rotr 13 x ^^^ rotr 22 x

def bigSig1 (x : Nat) : Nat := rotr 6 x ^^^ rotr 11 x ^^^ rotr 25 x

def chF (e f g : Nat) : Nat := (e &&& f) ^^^ ((e ^^^ 4294967295) &&& g)

def majF (a b c : Nat) : Nat := (a &&& b) ^^^ (a &&& c) ^^^ (b &&& c)

def shaK : List Nat :=
  [1116352408, 1899447441, 3049323471, 3921009573, 961987163, 1508970993,
   2453635748, 2870763221, 3624381080, 310598401, 607225278, 1426881987,
   1925078388, 2162078206, 2614888103, 3248222580, 3835390401, 4022224774,
   264347078, 604807628, 770255983, 1249150122, 1555081692, 1996064986,
   2554220882, 2821834349, 2952996808, 3210313671, 3336571891, 3584528711,
   113926993, 338241895, 666307205, 773529912, 1294757372, 1396182291,
   1695183700, 1986661051, 2177026350, 2456956037, 2730485921, 2820302411,
   3259730800, 3345764771, 3516065817, 3600352804, 4094571909, 275423344,
   430227734, 506948616, 659060556, 883997877, 958139571, 1322822218,
   1537002063, 1747873779, 1955562222, 2024104815, 2227730452, 2361852424,
   2428436474, 2756734187, 3204031479, 3329325298]

def shaH0 : List Nat :=
  [1779033703, 3144134277, 1013904242, 2773480762,
   1359893119, 2600822924, 528734635, 1541459225]

def bytesToWord (l : List Nat) : Nat := l.foldl (fun a b => a * 256 + b) 0

def wordBytes (n : Nat) : List Nat :=
  [n / 16777216 % 256, n / 65536 % 256, n / 256 % 256, n % 256]

def len64 (n : Nat) : List Nat :=
  (List.range 8).map fun i => n / 2 ^ (8 * (7 - i)) % 256

/-- SHA-256 padding: append `0x80`, zeros to 56 mod 64, then the 64-bit
    big-endian bit length. -/
def sha256Pad (msg : List Nat) : List Nat :=
  let z := (119 - msg.length % 64) % 64
  msg ++ 128 :: List.replicate z 0 ++ len64 (8 * msg.length)

def chunks64 (l : List Nat) : List (List Nat) :=
  if h : l = [] then [] else l.take 64 :: chunks64 (l.drop 64)
termination_by l.length
decreasing_by
  simp only [List.length_drop]
  have : l.length ≠ 0 := fun hz => h (List.length_eq_zero.mp hz)
  omega

/-- SHA-256 message schedule: the 16 block words extended to 64. -/
def schedule (block : List Nat) : List Nat :=
  let w16 := (List.range 16).map fun i => bytesToWord ((block.drop (4 * i)).take 4)
  (List.range 48).foldl
    (fun ws _ =>
      let k := ws.length
      ws ++ [w32 (ws.getD (k - 16) 0 + sig0 (ws.getD (k - 15) 0) +
                  ws.getD (k - 7) 0 + sig1 (ws.getD (k - 2) 0))])
    w16

def compressStep (st : List Nat) (kw : Nat × Nat) : List Nat :=
  match st with
  | [a, b, c, d, e, f, g, h] =>
    let t1 := w32 (h + bigSig1 e + chF e f g + kw.1 + kw.2)
    let t2 := w32 (bigSig0 a + majF a b c)
    [w32 (t1 + t2), a, b, c, w32 (d + t1), e, f, g]
  | st => st

def compress (h : List Nat) (block : List Nat) : List Nat :=
  let f := ((shaK.zip (schedule block)).foldl compressStep h)
  (h.zip f).map fun p => w32 (p.1 + p.2)

def sha256 (msg : List Nat) : List Nat :=
  (((chunks64 (sha256Pad msg)).foldl compress shaH0).map wordBytes).flatten

/-- HMAC-SHA256 (`hmac.new(secret, message, digestmod=hashlib.sha256)`). -/
def hmacSha256 (key msg : List Nat) : List Nat :=
  let k0 := if 64 < key.length then sha256 key else key
  let k := k0 ++ List.replicate (64 - k0.length) 0
  sha256 ((k.map (· ^^^ 92)) ++ sha256 ((k.map (· ^^^ 54)) ++ msg))

def b64Chars : List Char :=
  "ABCDEFGHIJKLMNOPQRSTUVWXYZabcdefghijklmnopqrstuvwxyz0123456789+/".data

def b64Char (n : Nat) : Char := b64Chars.getD n 'A'

/-- Standard Base64 encoding of a byte list (`base64.b64encode(...).decode()`). -/
def base64Encode : List Nat → String
  | [] => ""
  | [a] =>
    String.mk [b64Char (a / 4), b64Char (a % 4 * 16)] ++ "=="
  | [a, b] =>
    String.mk [b64Char (a / 4), b64Char (a % 4 * 16 + b / 16), b64Char (b % 16 * 4)] ++ "="
  | a :: b :: c :: rest =>
    String.mk [b64Char (a / 4), b64Char (a % 4 * 16 + b / 16),
               b64Char (b % 16 * 4 + c / 64), b64Char (c % 64)] ++ base64Encode rest

/-- `okx_sign` (src lines 120-123). -/
def okx_sign (timestamp method request_path body secret : String) : String :=
  let message := timestamp ++ pyUpper method ++ request_path ++ body
  base64Encode (hmacSha256 (utf8Encode secret) (utf8Encode message))

/-- `okx_headers` (src lines 125-136).  The wall-clock timestamp
    `str(time.time())` and the credential globals are passed explicitly. -/
def okx_headers (apiKey secret passphrase ts method request_path : String)
    (body : Option JsonVal) : List (String × String) × String :=
  let body_str := match body with
    | some b => if pyTruthy b then jsonDump b else ""
    | none => ""
  let sig := okx_sign ts method request_path body_str secret
  ([("OK-ACCESS-KEY", apiKey),
    ("OK-ACCESS-SIGN", sig),
    ("OK-ACCESS-TIMESTAMP", ts),
    ("OK-ACCESS-PASSPHRASE", passphrase),
    ("Content-Type", "application/json")], body_str)

/- ### HTTP calls (src lines 138-165, 189-191)

Each `requests` round-trip is an oracle value: either a status/parsed-body
pair or a raised exception, which the `except` clause in the source turns
into `(500, {"error": str(e)})`. -/

inductive HttpOutcome where
  | resp (status : Nat) (body : JsonVal)
  | exc (msg : String)

/-- Environment of one handler invocation: the wall clock (`CURRENT_TIMESTAMP`
    / `time.time()`), the outcome of a balance query and of a withdrawal
    request, if the handler performs them. -/
structure Env where
  now : Nat
  bal : HttpOutcome
  wd : HttpOutcome

def httpResult : HttpOutcome → Nat × JsonVal
  | .resp c b => (c, b)
  | .exc m => (500, .obj [("error", .str m)])

/-- `okx_get_balances` (src lines 138-147): the try/except body normalized to
    a status/body pair. -/
def okx_get_balances (env : Env) : Nat × JsonVal := httpResult env.bal

/-- `okx_withdraw` (src lines 149-165): the posted body fields are recorded by
    the caller (see `Out.withdrawCalls`); the result is the normalized
    status/body pair. -/
def okx_withdraw (env : Env) (_ccy _amt _to_addr _chain : String) : Nat × JsonVal :=
  httpResult env.wd

/-- `snapshot_balances` (src lines 189-191). -/
def snapshot_balances (env : Env) : Option JsonVal :=
  let r := okx_get_balances env
  if r.1 = 200 then some r.2 else none

/- ### Escrow store, users, sessions (src lines 46-79 and the
   `context.user_data` dictionaries) -/

/-- One row of the `escrows` table. -/
structure Escrow where
  chat_id : Int
  buyer_id : Int
  seller_id : Option Int := none
  seller_wallet : Option String := none
  amount : String
  currency : String := "USDT"
  description : Option String := none
  status : String
  created_at : Nat
  paid_at : Option Nat := none
  confirmed_at : Option Nat := none
  released_at : Option Nat := none
  okx_tx_id : Option String := none
  deposit_snapshot : Option JsonVal := none

/-- One row of the `users` table (the numeric key column is the map key). -/
structure UserRow where
  username : String
  lang : String := "en"
  wallet : Option String := none

/-- The `creating_escrow` entry of `context.user_data`. -/
structure CreatingEscrow where
  buyer_id : Int
  chat_id : Int
  step : String
  amount : Option String := none

/-- One user's `context.user_data`: the two keys the handlers use. -/
structure Session where
  setting_wallet : Option (Nat × Int) := none
  creating_escrow : Option CreatingEscrow := none

/-- The whole mutable state: both tables plus all per-user session data.
    `nextId` is the AUTOINCREMENT counter of `escrows`. -/
structure St where
  escrows : List (Nat × Escrow) := []
  nextId : Nat := 1
  users : List (Int × UserRow) := []
  sessions : List (Int × Session) := []

/-- Deployment constants read from the environment. -/
structure Cfg where
  adminId : Int
  depositAddress : String := "Set_DEPOSIT_ADDRESS_IN_ENV"

def getEscrow (s : St) (eid : Nat) : Option Escrow := assocGet eid s.escrows

def setEscrowRow (eid : Nat) (f : Escrow → Escrow) :
    List (Nat × Escrow) → List (Nat × Escrow)
  | [] => []
  | (k, e) :: rest =>
    if k = eid then (k, f e) :: setEscrowRow eid f rest
    else (k, e) :: setEscrowRow eid f rest

/-- `UPDATE escrows SET ... WHERE id = eid` (a no-op when the id is absent). -/
def updEscrow (s : St) (eid : Nat) (f : Escrow → Escrow) : St :=
  { s with escrows := setEscrowRow eid f s.escrows }

def getSession (s : St) (uid : Int) : Session := (assocGet uid s.sessions).getD {}

def setAssoc {α β : Type} [DecidableEq α] (k : α) (v : β) :
    List (α × β) → List (α × β)
  | [] => [(k, v)]
  | (k', v') :: rest =>
    if k' = k then (k, v) :: rest else (k', v') :: setAssoc k v rest

def setSession (s : St) (uid : Int) (sess : Session) : St :=
  { s with sessions := setAssoc uid sess s.sessions }

/-- `SELECT lang FROM users WHERE telegram_id = ?` with the `'en'` default
    (src lines 193-197). -/
def get_user_lang (s : St) (uid : Int) : String :=
  match assocGet uid s.users with
  | some u => u.lang
  | none => "en"

/-- `UPDATE users SET wallet = ? WHERE telegram_id = ?` (no-op when the row is
    absent). -/
def updUserWallet (s : St) (uid : Int) (w : String) : St :=
  { s with users := s.users.map fun p =>
      if p.1 = uid then (p.1, { p.2 with wallet := some w }) else p }

/-- `INSERT OR IGNORE INTO users (telegram_id, username, lang)`. -/
def insertOrIgnoreUser (s : St) (uid : Int) (username lang : String) : St :=
  match assocGet uid s.users with
  | some _ => s
  | none => { s with users := s.users ++ [(uid, { username := username, lang := lang })] }

/-- Python truthiness of a nullable integer column (`if seller_id:`). -/
def pyTruthyIntOpt : Option Int → Bool
  | none => false
  | some n => n != 0

/-- Python truthiness of a nullable text column (`if not seller_wallet:`). -/
def pyTruthyStrOpt : Option String → Bool
  | none => false
  | some w => !w.data.isEmpty

/- ### Handler output -/

/-- What a handler sends back: `editMsg` for `edit_message_text` /
    `reply_text`, `alert` for `q.answer(..., show_alert=True)` (the no-op
    rejection path), `sent` for `bot.send_message`.  The message-table text is
    identified by its `MESSAGES` key; ad hoc f-strings appear verbatim. -/
inductive Reply where
  | editMsg (text : String)
  | alert (text : String)
  | sent (chatId : Int) (text : String)
deriving DecidableEq

/-- Observable effects of one handler invocation: replies, every
    `okx_withdraw` POST issued (ccy, amt, toAddr, chain), and whether the
    handler raised (exception text) after the recorded effects. -/
structure Out where
  replies : List Reply := []
  withdrawCalls : List (String × String × String × String) := []
  raised : Option String := none
deriving DecidableEq

/- ### Event alphabet: every state-mutating entry point -/

inductive Ev where
  | newescrow (isGroup : Bool) (chatId : Int) (username : String)
  | msgText (t : String)
  | cbSetseller (eid : Nat)
  | cbView (eid : Nat)
  | cbPayaddr (eid : Nat)
  | cbMarkpaid (eid : Nat)
  | cbAdminConfirm (eid : Nat)
  | cbAdminReject (eid : Nat)
  | cbDelivered (eid : Nat)
  | cbAdminRelease (eid : Nat)
  | cbCancel (eid : Nat)

/- ### Handlers (src lines 238-353 and 355-652) -/

/-- `newescrow_cmd` (src lines 238-260). -/
def newescrow_cmd (s : St) (uid : Int) (isGroup : Bool) (chatId : Int)
    (username : String) : St × Out :=
  if !isGroup then (s, { replies := [.editMsg "group_only"] })
  else
    let lang := get_user_lang s uid
    let s := insertOrIgnoreUser s uid username lang
    let sess := getSession s uid
    let cd : CreatingEscrow := { buyer_id := uid, chat_id := chatId, step := "amount" }
    let s := setSession s uid { sess with creating_escrow := some cd }
    (s, { replies := [.editMsg "enter_amount"] })

/-- `text_handler` (src lines 262-353). -/
def text_handler (cfg : Cfg) (s : St) (uid : Int) (rawText : String)
    (env : Env) : St × Out :=
  let text := pyStrip rawText
  let sess := getSession s uid
  match sess.setting_wallet with
  | some (escrow_id, seller_id) =>
    let wallet := text
    if strLen wallet < 20 || 50 < strLen wallet then
      (s, { replies := [.editMsg "Invalid wallet format. Try again."] })
    else
      let s := updEscrow s escrow_id fun e =>
        { e with seller_id := some seller_id, seller_wallet := some wallet }
      let s := updUserWallet s seller_id wallet
      let s := setSession s uid { getSession s uid with setting_wallet := none }
      (s, { replies := [.editMsg "wallet_saved"] })
  | none =>
    match sess.creating_escrow with
    | some cd =>
      if cd.step = "amount" then
        match safe_decimal text with
        | none => (s, { replies := [.editMsg "invalid_amount"] })
        | some amount =>
          if amount.isNonPos then (s, { replies := [.editMsg "invalid_amount"] })
          else
            let cd' : CreatingEscrow :=
              { cd with amount := some amount.render, step := "description" }
            let s := setSession s uid { sess with creating_escrow := some cd' }
            (s, { replies := [.editMsg "enter_description"] })
      else if cd.step = "description" then
        let description := strTake text 200
        let snapshot := snapshot_balances env
        let stored := match snapshot with
          | some j => if pyTruthy j then some j else none
          | none => none
        let e : Escrow :=
          { chat_id := cd.chat_id, buyer_id := cd.buyer_id,
            amount := cd.amount.getD "", description := some description,
            status := "created", created_at := env.now,
            deposit_snapshot := stored }
        let s := { s with escrows := s.escrows ++ [(s.nextId, e)],
                          nextId := s.nextId + 1 }
        let s := setSession s uid { getSession s uid with creating_escrow := none }
        (s, { replies := [.editMsg "escrow_created"] ++
            (if cfg.adminId != 0 then [.sent cfg.adminId "new_escrow_admin_note"] else []) })
      else (s, {})
    | none => (s, {})

/-- `setseller_` branch of `callback_handler` (src lines 364-390). -/
def cb_setseller (s : St) (uid : Int) (eid : Nat) : St × Out :=
  match getEscrow s eid with
  | none => (s, { replies := [.editMsg "Escrow not found."] })
  | some e =>
    if uid = e.buyer_id then (s, { replies := [.alert "only_seller"] })
    else if pyTruthyIntOpt e.seller_id then
      (s, { replies := [.alert "Seller already set!"] })
    else
      let sess := getSession s uid
      (setSession s uid { sess with setting_wallet := some (eid, uid) },
       { replies := [.editMsg "seller_prompt"] })

/-- `markpaid_` branch (src lines 438-480). -/
def cb_markpaid (cfg : Cfg) (s : St) (uid : Int) (eid : Nat) (now : Nat) : St × Out :=
  match getEscrow s eid with
  | none => (s, { replies := [.editMsg "Escrow not found."] })
  | some e =>
    if uid ≠ e.buyer_id then (s, { replies := [.alert "only_buyer"] })
    else if e.status ≠ "created" then (s, { replies := [.alert "Already marked!"] })
    else
      let s := updEscrow s eid fun e =>
        { e with status := "paid", paid_at := some now }
      (s, { replies := [.editMsg "paid_marked"] ++
          (if cfg.adminId != 0 then [.sent cfg.adminId "escrow_marked_paid"] else []) })

/-- `admin_confirm_` branch (src lines 482-514): note there is no check of the
    current status; the UPDATE is unconditional. -/
def cb_admin_confirm (cfg : Cfg) (s : St) (uid : Int) (eid : Nat) (now : Nat) : St × Out :=
  if uid ≠ cfg.adminId then (s, { replies := [.alert "only_admin"] })
  else
    let s := updEscrow s eid fun e =>
      { e with status := "confirmed", confirmed_at := some now }
    let row := getEscrow s eid
    (s, { replies := [.editMsg "confirmed"] ++
        (match row with
         | some e => [.sent e.chat_id "confirmed_group"]
         | none => []) })

/-- `admin_reject_` branch (src lines 516-527): unconditionally resets the
    status to `created`. -/
def cb_admin_reject (cfg : Cfg) (s : St) (uid : Int) (eid : Nat) : St × Out :=
  if uid ≠ cfg.adminId then (s, { replies := [.alert "only_admin"] })
  else
    (updEscrow s eid (fun e => { e with status := "created" }),
     { replies := [.editMsg "Payment rejected"] })

/-- `delivered_` branch (src lines 529-567): notifications only, no writes. -/
def cb_delivered (cfg : Cfg) (s : St) (uid : Int) (eid : Nat) : St × Out :=
  match getEscrow s eid with
  | none => (s, { replies := [.editMsg "Escrow not found."] })
  | some e =>
    if some uid ≠ e.seller_id then (s, { replies := [.alert "only_seller"] })
    else if e.status ≠ "confirmed" then (s, { replies := [.alert "Not confirmed yet!"] })
    else
      (s, { replies := [.editMsg "delivered"] ++
          (if cfg.adminId != 0 then [.sent cfg.adminId "delivery_confirmed"] else []) })

/-- The release UPDATE (src lines 600-601): status, tx reference and release
    timestamp are written together. -/
def applyRelease (now : Nat) (tx : String) (e : Escrow) : Escrow :=
  { e with status := "released", okx_tx_id := some tx, released_at := some now }

/-- `res.get("code") in (None, "0")` (src line 594): the body-level success
    test, true when the field is absent, JSON `null` (Python `None`), or the
    string `"0"`. -/
def okCodeB : Option JsonVal → Bool
  | none => true
  | some .null => true
  | some (.str "0") => true
  | _ => false

/-- The `wdId` extraction of src lines 595-598: the first element of a
    nonempty list-valued `data` field; raises when that element is not a
    dict; `none` when the shape differs. -/
def txidExtract : JsonVal → Except String (Option JsonVal)
  | .arr (d0 :: _) =>
    (match d0 with
     | .obj fs0 => .ok (assocGet "wdId" fs0)
     | _ => .error "AttributeError")
  | _ => .ok none

/-- `txid or "manual"` (src line 601). -/
def txidToStr : Option JsonVal → String
  | some v => if pyTruthy v then pyStr v else "manual"
  | none => "manual"

/-- `admin_release_` branch (src lines 569-621).  `res.get("code")` is only
    reached when the HTTP status is 200 (short-circuit); it raises when the
    body is not a dict, and the `wdId` extraction raises on a non-dict first
    data element — in both cases after the withdrawal POST but before any
    database write. -/
def cb_admin_release (cfg : Cfg) (s : St) (uid : Int) (eid : Nat) (env : Env) : St × Out :=
  if uid ≠ cfg.adminId then (s, { replies := [.alert "only_admin"] })
  else
    match getEscrow s eid with
    | none => (s, { replies := [.editMsg "Escrow not found."] })
    | some e =>
      if !pyTruthyStrOpt e.seller_wallet then
        (s, { replies := [.editMsg "No seller wallet!"] })
      else
        let wallet := e.seller_wallet.getD ""
        let r := okx_withdraw env "USDT" e.amount wallet "TRC20"
        let call := ("USDT", e.amount, wallet, "TRC20")
        let processing : Reply := .editMsg "Processing withdrawal..."
        if r.1 = 200 then
          match pyGet r.2 "code" with
          | .error m =>
            (s, { replies := [processing], withdrawCalls := [call], raised := some m })
          | .ok codeVal =>
            if okCodeB codeVal then
              let data_field := match r.2 with
                | .obj fs => (assocGet "data" fs).getD .null
                | _ => .null
              match txidExtract data_field with
              | .error m =>
                (s, { replies := [processing], withdrawCalls := [call], raised := some m })
              | .ok t =>
                let s := updEscrow s eid (applyRelease env.now (txidToStr t))
                (s, { replies := [processing, .editMsg "released",
                                  .sent e.chat_id "released_group"],
                      withdrawCalls := [call] })
            else
              (s, { replies := [processing, .editMsg "okx_withdraw_failed"],
                    withdrawCalls := [call] })
        else
          (s, { replies := [processing, .editMsg "okx_withdraw_failed"],
                withdrawCalls := [call] })

/-- `cancel_` branch (src lines 623-652). -/
def cb_cancel (cfg : Cfg) (s : St) (uid : Int) (eid : Nat) : St × Out :=
  match getEscrow s eid with
  | none => (s, { replies := [.editMsg "Escrow not found."] })
  | some e =>
    if uid ≠ e.buyer_id ∧ uid ≠ cfg.adminId then
      (s, { replies := [.alert "only_admin"] })
    else if e.status = "released" ∨ e.status = "cancelled" then
      (s, { replies := [.alert "Cannot cancel!"] })
    else
      (updEscrow s eid (fun e => { e with status := "cancelled" }),
       { replies := [.editMsg "cancelled", .sent e.chat_id "cancelled_group"] })

/-- The single transition function: dispatch of `callback_handler`,
    `text_handler` and `newescrow_cmd` on one inbound event.  (`/start`,
    `/escrow` and `/balance` perform no writes and are omitted.) -/
def step (cfg : Cfg) (s : St) (uid : Int) (ev : Ev) (env : Env) : St × Out :=
  match ev with
  | .newescrow g cid un => newescrow_cmd s uid g cid un
  | .msgText t => text_handler cfg s uid t env
  | .cbSetseller eid => cb_setseller s uid eid
  | .cbView _ => (s, { replies := [.editMsg "view"] })
  | .cbPayaddr _ => (s, { replies := [.editMsg "payment_address"] })
  | .cbMarkpaid eid => cb_markpaid cfg s uid eid env.now
  | .cbAdminConfirm eid => cb_admin_confirm cfg s uid eid env.now
  | .cbAdminReject eid => cb_admin_reject cfg s uid eid
  | .cbDelivered eid => cb_delivered cfg s uid eid
  | .cbAdminRelease eid => cb_admin_release cfg s uid eid env
  | .cbCancel eid => cb_cancel cfg s uid eid

/-- States reachable from the empty store by any event sequence. -/
inductive Reach (cfg : Cfg) : St → Prop where
  | init : Reach cfg {}
  | next : ∀ {s} (uid : Int) (ev : Ev) (env : Env),
      Reach cfg s → Reach cfg (step cfg s uid ev env).1

/- ### Specification-side definitions used to state the claims -/

/-- One forward edge of the §4.1 status graph, as the claims read it:
    created → paid → confirmed → released, with cancelled reachable from any
    non-terminal state. -/
def statusStepB (a b : String) : Bool :=
  (a = "created" && b = "paid") ||
  (a = "paid" && b = "confirmed") ||
  (a = "confirmed" && b = "released") ||
  ((a = "created" || a = "paid" || a = "confirmed") && b = "cancelled")

def validStatus (a : String) : Bool :=
  a = "created" || a = "paid" || a = "confirmed" || a = "released" || a = "cancelled"

/-- The events whose handlers update the store without checking the current
    status first (the three admin branches). -/
def uncheckedAdminEv : Ev → Bool
  | .cbAdminConfirm _ => true
  | .cbAdminReject _ => true
  | .cbAdminRelease _ => true
  | _ => false

/-- Whether the `wdId` extraction of the release branch completes without
    raising (the first `data` element, when the field is a nonempty list,
    must be a dict). -/
def wdDataOk (fs : List (String × JsonVal)) : Bool :=
  match txidExtract ((assocGet "data" fs).getD .null) with
  | .ok _ => true
  | .error _ => false

/-- Characterization of when the `admin_release_` branch commits the release
    (HTTP status exactly 200, a dict body whose `code` is `"0"`, `null` or
    absent, and a `wdId` extraction that does not raise). -/
def releaseOkSpec : HttpOutcome → Bool
  | .resp c body =>
    (c == 200) &&
    (match body with
     | .obj fs => okCodeB (assocGet "code" fs) && wdDataOk fs
     | _ => false)
  | .exc _ => false

/-- The tx reference the release stores: the first data element's `wdId` when
    truthy, the sentinel `"manual"` otherwise. -/
def releaseTxSpec : HttpOutcome → String
  | .resp _ (.obj fs) =>
    (match txidExtract ((assocGet "data" fs).getD .null) with
     | .ok t => txidToStr t
     | .error _ => "manual")
  | _ => "manual"

/-- The flattened stream of detail records that `find_usdt_balance` iterates:
    the `details` lists of the dict entries of a truthy list-valued `data`
    field, in order.  Entry-level fields other than `details` never enter. -/
def collectDetails (j : JsonVal) : List JsonVal :=
  match j with
  | .obj fs =>
    let data0 := (assocGet "data" fs).getD .null
    match (if pyTruthy data0 then data0 else .arr []) with
    | .arr entries => (entries.filterMap entryDetails).flatten
    | _ => []
  | _ => []

/-- Collapse the loop verdict (`none` = fell through with no hit) into the
    function result. -/
def collapseScan : Except String (Option (Option PyDecimal)) → Except String (Option PyDecimal)
  | .error m => .error m
  | .ok (some r) => .ok r
  | .ok none => .ok none

/-- Follows the spec's words (§4.2, §8): search, in priority order, the
    detail-level value of the USDT record, then entry-level aliases, then any
    string-valued entry field whose key mentions the settlement asset,
    returning the first value parseable as an exact decimal; `none` is the
    defined "unknown" result.  Stated only to compare with what the code
    does. -/
def specBalanceExtract (j : JsonVal) : Option PyDecimal :=
  match j with
  | .obj fs =>
    match (assocGet "data" fs).getD .null with
    | .arr entries =>
      let detailHit := entries.findSome? fun e =>
        match e with
        | .obj efs =>
          match (assocGet "details" efs).getD .null with
          | .arr ds => ds.findSome? fun d =>
              match d with
              | .obj dfs =>
                match (assocGet "ccy" dfs).getD .null with
                | .str c =>
                  if pyUpper c = "USDT" then
                    [assocGet "availBal" dfs, assocGet "cashBal" dfs].findSome? fun v =>
                      match v with
                      | some (.str sv) => safe_decimal sv
                      | _ => none
                  else none
                | _ => none
              | _ => none
          | _ => none
        | _ => none
      let aliasHit := entries.findSome? fun e =>
        match e with
        | .obj efs =>
          [assocGet "availBal" efs, assocGet "cashBal" efs].findSome? fun v =>
            match v with
            | some (.str sv) => safe_decimal sv
            | _ => none
        | _ => none
      let keyHit := entries.findSome? fun e =>
        match e with
        | .obj efs => efs.findSome? fun kv =>
            match kv.2 with
            | .str sv =>
              if ((pyUpper kv.1).splitOn "USDT").length > 1 then safe_decimal sv
              else none
            | _ => none
        | _ => none
      (detailHit.orElse fun _ => (aliasHit.orElse fun _ => keyHit))
    | _ => none
  | _ => none

/-- Outcomes of the Balance Reconciler described in spec §4.3. -/
inductive ReconOutcome where
  | deposit_confirmed
  | deposit_not_detected
  | inconclusive
deriving DecidableEq

/-- Extraction of a balance from an optional stored snapshot, unknown when
    the snapshot is absent, the parser finds nothing, or the parser raises. -/
def extractBal : Option JsonVal → Option PyDecimal
  | none => none
  | some j =>
    match find_usdt_balance j with
    | .ok r => r
    | .error _ => none

/-- Modelled from the spec: the Balance Reconciler of §4.3 — absent from the
    source, which performs no reconciliation anywhere.  Extract the USDT
    balance from both snapshots via the Exchange Client's parser; if either is
    unknown return `inconclusive`; otherwise `deposit_confirmed` iff
    `current >= previous + amount`. -/
def reconcile (prev cur : Option JsonVal) (amount : PyDecimal) : ReconOutcome :=
  match extractBal prev, extractBal cur with
  | some p, some c =>
    if (p.add amount).le c then .deposit_confirmed else .deposit_not_detected
  | _, _ => .inconclusive

/-- A balance query that failed at the transport level or returned a non-200
    status (the outcomes claim C9 ranges over). -/
def balFails : HttpOutcome → Bool
  | .exc _ => true
  | .resp c _ => c ≠ 200

/- ### A concrete deployment and run used by the counterexamples -/

def cfg0 : Cfg := { adminId := 99, depositAddress := "DEPOSIT" }

/-- Environment for steps that perform no exchange call (or whose calls
    fail). -/
def envAt (t : Nat) : Env := { now := t, bal := .exc "timeout", wd := .exc "timeout" }

/-- Environment whose withdrawal call returns the documented success body. -/
def wdOkEnv (t : Nat) (wid : String) : Env :=
  { now := t, bal := .exc "x",
    wd := .resp 200 (.obj [("code", .str "0"), ("data", .arr [.obj [("wdId", .str wid)]])]) }

def s1 : St := (step cfg0 {} 10 (.newescrow true 7 "buyer") (envAt 1)).1

def s2 : St := (step cfg0 s1 10 (.msgText "20") (envAt 2)).1

def s3 : St := (step cfg0 s2 10 (.msgText "website work") (envAt 3)).1

def s4 : St := (step cfg0 s3 20 (.cbSetseller 1) (envAt 4)).1

def s5 : St := (step cfg0 s4 20 (.msgText "TSellerWalletAddr1234567890x") (envAt 5)).1

def s6 : St := (step cfg0 s5 10 (.cbMarkpaid 1) (envAt 6)).1

def s7 : St := (step cfg0 s6 99 (.cbAdminConfirm 1) (envAt 7)).1

def s8 : St := (step cfg0 s7 99 (.cbAdminRelease 1) (wdOkEnv 8 "w1")).1

/- ### Reachability invariant -/

/-- Per-row invariant: the tx reference and the release timestamp are set
    together, and a recorded seller is never the buyer. -/
def EscrowInvOk (e : Escrow) : Prop :=
  (e.okx_tx_id ≠ none ↔ e.released_at ≠ none) ∧
  (∀ sid, e.seller_id = some sid → sid ≠ e.buyer_id)

/-- Session invariant: a pending wallet-submission always points at an
    existing escrow whose buyer is not the prospective seller. -/
def SessInvOk (s : St) : Prop :=
  ∀ uid sess, assocGet uid s.sessions = some sess →
    ∀ eid sid, sess.setting_wallet = some (eid, sid) →
      ∃ e, getEscrow s eid = some e ∧ sid ≠ e.buyer_id

def StInv (s : St) : Prop :=
  (∀ eid e, getEscrow s eid = some e → EscrowInvOk e) ∧
  SessInvOk s ∧
  (∀ p, p ∈ s.escrows → p.1 < s.nextId)

/- ### Concrete rows of those states (checked by `rfl` where used) -/

/-- Escrow #1 as created in `s3`. -/
def e3 : Escrow :=
  { chat_id := 7, buyer_id := 10, amount := "20",
    description := some "website work", status := "created", created_at := 3 }

/-- Escrow #1 after the seller-wallet submission (`s5`). -/
def e5 : Escrow :=
  { e3 with seller_id := some 20,
            seller_wallet := some "TSellerWalletAddr1234567890x" }

/-- Escrow #1 after mark-paid (`s6`). -/
def e6 : Escrow := { e5 with status := "paid", paid_at := some 6 }

/-- Escrow #1 after admin confirmation (`s7`). -/
def e7 : Escrow := { e6 with status := "confirmed", confirmed_at := some 7 }

/-- The creation session pending in `s2`. -/
def cd2 : CreatingEscrow :=
  { buyer_id := 10, chat_id := 7, step := "description", amount := some "20" }

/-- Double-claim interleaving: both user 20 and user 30 pass the `setseller_`
    guard before either submits a wallet. -/
def t4 : St := (step cfg0 s3 20 (.cbSetseller 1) (envAt 4)).1

def t5 : St := (step cfg0 t4 30 (.cbSetseller 1) (envAt 5)).1

def t6 : St := (step cfg0 t5 20 (.msgText "WalletA_aaaaaaaaaaaaaaaaaa") (envAt 6)).1

def t7 : St := (step cfg0 t6 30 (.msgText "WalletB_bbbbbbbbbbbbbbbbbb") (envAt 7)).1

/-- Escrow #1 in `t7`: the second wallet submission overwrote the seller. -/
def e_t7 : Escrow :=
  { e3 with seller_id := some 30,
            seller_wallet := some "WalletB_bbbbbbbbbbbbbbbbbb" }

/-- Released escrow followed by a stray admin confirmation. -/
def s9 : St := (step cfg0 s8 99 (.cbAdminConfirm 1) (envAt 9)).1

/-- An OKX balance body whose USDT `availBal` is the given string. -/
def balRich (v : String) : JsonVal :=
  .obj [("data", .arr [.obj [("details",
    .arr [.obj [("ccy", .str "USDT"), ("availBal", .str v)]])]])]

/- ### Association-list lemmas -/

theorem assocGet_setAssoc {α β : Type} [DecidableEq α] (k k' : α) (v : β)
    (l : List (α × β)) :
    assocGet k (setAssoc k' v l) = if k = k' then some v else assocGet k l := by
  induction l with
  | nil =>
    by_cases h : k = k'
    · subst h; simp [setAssoc, assocGet]
    · have h' : ¬ k' = k := fun hh => h hh.symm
      simp [setAssoc, assocGet, h, h']
  | cons p rest ih =>
    obtain ⟨a, b⟩ := p
    by_cases ha : a = k'
    · subst ha
      by_cases h : k = a
      · subst h; simp [setAssoc, assocGet]
      · have h' : ¬ a = k := fun hh => h hh.symm
        simp [setAssoc, assocGet, h, h']
    · by_cases hak : a = k
      · subst hak
        simp [setAssoc, assocGet, ha]
      · simp [setAssoc, assocGet, ha, hak, ih]

theorem assocGet_setEscrowRow (k eid : Nat) (f : Escrow → Escrow)
    (l : List (Nat × Escrow)) :
    assocGet k (setEscrowRow eid f l) =
      if k = eid then (assocGet k l).map f else assocGet k l := by
  induction l with
  | nil => by_cases h : k = eid <;> simp [setEscrowRow, assocGet, h]
  | cons p rest ih =>
    obtain ⟨a, b⟩ := p
    by_cases hae : a = eid
    · subst hae
      by_cases hak : a = k
      · subst hak; simp [setEscrowRow, assocGet]
      · simp [setEscrowRow, assocGet, hak, ih]
    · by_cases hak : a = k
      · subst hak
        have h' : ¬ a = eid := hae
        simp [setEscrowRow, assocGet, h']
      · simp [setEscrowRow, assocGet, hae, hak, ih]

theorem assocGet_append_of_some {α β : Type} [DecidableEq α] {k : α} {v : β}
    {l : List (α × β)} (l' : List (α × β)) (h : assocGet k l = some v) :
    assocGet k (l ++ l') = some v := by
  induction l with
  | nil => simp [assocGet] at h
  | cons p rest ih =>
    obtain ⟨a, b⟩ := p
    by_cases h1 : a = k
    · simp only [assocGet, if_pos h1] at h
      simp only [List.cons_append, assocGet, if_pos h1]
      exact h
    · simp only [assocGet, if_neg h1] at h
      simp only [List.cons_append, assocGet, if_neg h1]
      exact ih h

theorem assocGet_append_of_none {α β : Type} [DecidableEq α] {k : α}
    {l : List (α × β)} (l' : List (α × β)) (h : assocGet k l = none) :
    assocGet k (l ++ l') = assocGet k l' := by
  induction l with
  | nil => simp
  | cons p rest ih =>
    obtain ⟨a, b⟩ := p
    by_cases h1 : a = k
    · simp only [assocGet, if_pos h1] at h
      cases h
    · simp only [assocGet, if_neg h1] at h
      simp only [List.cons_append, assocGet, if_neg h1]
      exact ih h

theorem assocGet_append_cases {α β : Type} [DecidableEq α] {k : α} {v : β}
    {l l' : List (α × β)} (h : assocGet k (l ++ l') = some v) :
    assocGet k l = some v ∨ (assocGet k l = none ∧ assocGet k l' = some v) := by
  cases hl : assocGet k l with
  | some w =>
    have h2 := assocGet_append_of_some l' hl
    rw [h] at h2
    injection h2 with h3
    exact Or.inl (congrArg some h3.symm)
  | none =>
    have h2 := assocGet_append_of_none l' hl
    rw [h] at h2
    exact Or.inr ⟨rfl, h2.symm⟩

theorem setEscrowRow_map_fst (eid : Nat) (f : Escrow → Escrow)
    (l : List (Nat × Escrow)) :
    (setEscrowRow eid f l).map Prod.fst = l.map Prod.fst := by
  induction l with
  | nil => rfl
  | cons p rest ih =>
    obtain ⟨a, b⟩ := p
    by_cases h : a = eid <;> simp [setEscrowRow, h, ih]

theorem stInv_init : StInv ({} : St) := by
  refine ⟨?_, ?_, ?_⟩
  · intro eid e h
    simp [getEscrow, assocGet] at h
  · intro uid sess h
    simp [assocGet] at h
  · intro p h
    simp at h

/-- Invariant preservation through a row update that keeps the buyer and the
    per-row invariant intact. -/
theorem stInv_updEscrow {s : St} (eid : Nat) (f : Escrow → Escrow)
    (hf : ∀ e, getEscrow s eid = some e → EscrowInvOk e → EscrowInvOk (f e))
    (hb : ∀ e, (f e).buyer_id = e.buyer_id)
    (h : StInv s) : StInv (updEscrow s eid f) := by
  obtain ⟨hE, hS, hK⟩ := h
  refine ⟨?_, ?_, ?_⟩
  · intro eid' e' hget
    simp only [getEscrow, updEscrow] at hget
    rw [assocGet_setEscrowRow] at hget
    by_cases hc : eid' = eid
    · rw [if_pos hc] at hget
      cases hg : assocGet eid' s.escrows with
      | none => rw [hg] at hget; cases hget
      | some e =>
        rw [hg] at hget
        injection hget with h3
        exact h3 ▸ hf e (hc ▸ hg) (hE eid' e hg)
    · rw [if_neg hc] at hget
      exact hE eid' e' hget
  · intro uid sess hsess eid' sid hsw
    have hsess' : assocGet uid s.sessions = some sess := hsess
    obtain ⟨e, hge, hne⟩ := hS uid sess hsess' eid' sid hsw
    simp only [getEscrow] at hge
    by_cases hc : eid' = eid
    · refine ⟨f e, ?_, ?_⟩
      · simp only [getEscrow, updEscrow]
        rw [assocGet_setEscrowRow, if_pos hc, hge]
        rfl
      · rw [hb]; exact hne
    · refine ⟨e, ?_, hne⟩
      simp only [getEscrow, updEscrow]
      rw [assocGet_setEscrowRow, if_neg hc]
      exact hge
  · intro p hp
    have hm : p.1 ∈ (setEscrowRow eid f s.escrows).map Prod.fst :=
      List.mem_map_of_mem _ hp
    rw [setEscrowRow_map_fst] at hm
    obtain ⟨q, hq, hq1⟩ := List.mem_map.mp hm
    show p.1 < s.nextId
    rw [← hq1]
    exact hK q hq

/-- A wallet-submission pending in a session always refers to an existing
    escrow whose buyer is not the prospective seller (reading through the
    `getD` default of `getSession`). -/
theorem getSession_setting {s : St} (hS : SessInvOk s) (uid : Int) :
    ∀ eid sid, (getSession s uid).setting_wallet = some (eid, sid) →
      ∃ e, getEscrow s eid = some e ∧ sid ≠ e.buyer_id := by
  intro eid sid h
  unfold getSession at h
  cases hg : assocGet uid s.sessions with
  | none =>
    rw [hg] at h
    exact Option.noConfusion h
  | some sess =>
    rw [hg] at h
    exact hS uid sess hg eid sid h

/-- Session replacement preserves the invariant as long as the new session's
    pending wallet-submission (if any) is itself justified. -/
theorem stInv_setSession {s : St} (uid : Int) (sess : Session)
    (hnew : ∀ eid sid, sess.setting_wallet = some (eid, sid) →
        ∃ e, getEscrow s eid = some e ∧ sid ≠ e.buyer_id)
    (h : StInv s) : StInv (setSession s uid sess) := by
  obtain ⟨hE, hS, hK⟩ := h
  refine ⟨hE, ?_, hK⟩
  intro uid' sess' hsess' eid sid hsw
  have hsess2 : assocGet uid' (setAssoc uid sess s.sessions) = some sess' := hsess'
  rw [assocGet_setAssoc] at hsess2
  by_cases hc : uid' = uid
  · rw [if_pos hc] at hsess2
    injection hsess2 with h2
    exact hnew eid sid (by rw [h2]; exact hsw)
  · rw [if_neg hc] at hsess2
    exact hS uid' sess' hsess2 eid sid hsw

/-- User-table writes do not affect the invariant. -/
theorem stInv_insertUser {s : St} (uid : Int) (un lg : String)
    (h : StInv s) : StInv (insertOrIgnoreUser s uid un lg) := by
  unfold insertOrIgnoreUser
  cases assocGet uid s.users <;> exact h

theorem stInv_updUserWallet {s : St} (uid : Int) (w : String)
    (h : StInv s) : StInv (updUserWallet s uid w) := h

/-- Appending a fresh escrow row (at the AUTOINCREMENT key) preserves the
    invariant when the new row satisfies it. -/
theorem stInv_insertEscrow {s : St} (e : Escrow) (he : EscrowInvOk e)
    (h : StInv s) :
    StInv { s with escrows := s.escrows ++ [(s.nextId, e)], nextId := s.nextId + 1 } := by
  obtain ⟨hE, hS, hK⟩ := h
  refine ⟨?_, ?_, ?_⟩
  · intro eid e' hget
    have hget' : assocGet eid (s.escrows ++ [(s.nextId, e)]) = some e' := hget
    rcases assocGet_append_cases hget' with h1 | ⟨_, h2⟩
    · exact hE eid e' h1
    · simp only [assocGet] at h2
      by_cases hc : s.nextId = eid
      · rw [if_pos hc] at h2
        injection h2 with h3
        exact h3 ▸ he
      · rw [if_neg hc] at h2
        exact Option.noConfusion h2
  · intro uid sess hsess eid sid hsw
    obtain ⟨e0, hge, hne⟩ := hS uid sess hsess eid sid hsw
    exact ⟨e0, assocGet_append_of_some _ hge, hne⟩
  · intro p hp
    rcases List.mem_append.mp hp with h1 | h1
    · exact Nat.lt_succ_of_lt (hK p h1)
    · have h2 : p = (s.nextId, e) := List.mem_singleton.mp h1
      show p.1 < s.nextId + 1
      rw [h2]
      exact Nat.lt_succ_self _

/-- The state reached by the `admin_release_` branch once its three guards
    pass: the escrow is updated exactly when `releaseOkSpec` accepts the
    withdrawal outcome, and is untouched otherwise (failure reply or raised
    exception). -/
theorem cb_admin_release_eq (cfg : Cfg) (s : St) (uid : Int) (eid : Nat) (env : Env)
    (e : Escrow) (hu : ¬ uid ≠ cfg.adminId) (hge : getEscrow s eid = some e)
    (hw : ¬ (!pyTruthyStrOpt e.seller_wallet) = true) :
    (cb_admin_release cfg s uid eid env).1 =
      if releaseOkSpec env.wd then
        updEscrow s eid (applyRelease env.now (releaseTxSpec env.wd))
      else s := by
  obtain ⟨now, bal, wd⟩ := env
  unfold cb_admin_release
  rw [if_neg hu, hge]
  dsimp only
  rw [if_neg hw]
  dsimp only [okx_withdraw, httpResult]
  cases wd with
  | exc m =>
    dsimp only [httpResult, releaseOkSpec]
    rw [if_neg (by decide : ¬ (500 : Nat) = 200), if_neg (by decide : ¬ false = true)]
  | resp c b =>
    dsimp only [httpResult, releaseOkSpec]
    by_cases hc : c = 200
    · subst hc
      rw [if_pos rfl]
      cases b with
      | obj fs =>
        dsimp only [pyGet]
        rw [show ((200 : Nat) == 200) = true from rfl, Bool.true_and]
        by_cases hok : okCodeB (assocGet "code" fs) = true
        · rw [if_pos hok, hok, Bool.true_and]
          cases htx : txidExtract ((assocGet "data" fs).getD .null) with
          | error m =>
            have hd : wdDataOk fs = false := by unfold wdDataOk; rw [htx]
            rw [hd]
            simp only [Bool.false_eq_true, if_false]
          | ok t =>
            have hd : wdDataOk fs = true := by unfold wdDataOk; rw [htx]
            rw [hd, if_pos rfl]
            unfold releaseTxSpec
            dsimp only
            rw [htx]
        · have hok' : okCodeB (assocGet "code" fs) = false := by
            cases hbe : okCodeB (assocGet "code" fs)
            · rfl
            · exact absurd hbe hok
          rw [if_neg hok, hok', Bool.false_and]
          simp only [Bool.false_eq_true, if_false]
      | null =>
        dsimp only [pyGet]
        rw [if_neg (by decide)]
      | bool x =>
        dsimp only [pyGet]
        rw [if_neg (by decide)]
      | num x =>
        dsimp only [pyGet]
        rw [if_neg (by decide)]
      | str x =>
        dsimp only [pyGet]
        rw [if_neg (by decide)]
      | arr x =>
        dsimp only [pyGet]
        rw [if_neg (by decide)]
    · rw [if_neg hc]
      have hb : (c == 200) = false := by
        cases hbe : c == 200
        · rfl
        · exact absurd (by simpa using hbe) hc
      rw [hb, Bool.false_and]
      simp only [Bool.false_eq_true, if_false]

/-- One inbound event preserves the invariant. -/
theorem step_stInv (cfg : Cfg) (s : St) (uid : Int) (ev : Ev) (env : Env)
    (h : StInv s) : StInv (step cfg s uid ev env).1 := by
  cases ev with
  | newescrow g cid un =>
    cases g with
    | false => exact h
    | true =>
      have h1 : StInv (insertOrIgnoreUser s uid un (get_user_lang s uid)) :=
        stInv_insertUser uid un (get_user_lang s uid) h
      exact stInv_setSession uid _ (fun eid sid hsw =>
        getSession_setting h1.2.1 uid eid sid hsw) h1
  | msgText t =>
    show StInv (text_handler cfg s uid t env).1
    simp only [text_handler]
    cases hsw : (getSession s uid).setting_wallet with
    | some p =>
      obtain ⟨eid0, sid0⟩ := p
      by_cases hlen : strLen (pyStrip t) < 20 || 50 < strLen (pyStrip t)
      · simp only [hlen, if_true]
        exact h
      · simp only [hlen, if_false]
        have hok : ∀ e, getEscrow s eid0 = some e → sid0 ≠ e.buyer_id := by
          intro e hge
          obtain ⟨e', hge', hne'⟩ := getSession_setting h.2.1 uid eid0 sid0 hsw
          rw [hge] at hge'
          injection hge' with h2
          rw [h2]
          exact hne'
        have h1 : StInv (updEscrow s eid0 fun e =>
            { e with seller_id := some sid0, seller_wallet := some (pyStrip t) }) := by
          refine stInv_updEscrow eid0 _ ?_ (fun e => rfl) h
          intro e hge hE
          refine ⟨hE.1, ?_⟩
          intro sid hs
          injection hs with h2
          rw [← h2]
          exact hok e hge
        have h2 : StInv (updUserWallet (updEscrow s eid0 fun e =>
            { e with seller_id := some sid0, seller_wallet := some (pyStrip t) })
            sid0 (pyStrip t)) := h1
        exact stInv_setSession _ _ (fun eid sid hsw' => Option.noConfusion hsw') h2
    | none =>
      cases hcr : (getSession s uid).creating_escrow with
      | none => exact h
      | some cd =>
        by_cases hstep : cd.step = "amount"
        · simp only [hstep, if_true]
          cases safe_decimal (pyStrip t) with
          | none => exact h
          | some amount =>
            by_cases hnp : amount.isNonPos
            · simp only [hnp, if_true]
              exact h
            · simp only [hnp, if_false]
              refine stInv_setSession uid _ ?_ h
              intro eid sid hsw'
              exact Option.noConfusion hsw'
        · simp only [hstep, if_false]
          by_cases hstep2 : cd.step = "description"
          · simp only [hstep2, if_true]
            have he : EscrowInvOk
                { chat_id := cd.chat_id, buyer_id := cd.buyer_id,
                  amount := cd.amount.getD "", description := some (strTake (pyStrip t) 200),
                  status := "created", created_at := env.now,
                  deposit_snapshot :=
                    match snapshot_balances env with
                    | some j => if pyTruthy j then some j else none
                    | none => none } := by
              constructor
              · constructor <;> intro hx <;> exact absurd rfl hx
              · intro sid hs
                exact Option.noConfusion hs
            have h1 := stInv_insertEscrow _ he h
            refine stInv_setSession uid _ ?_ h1
            intro eid sid hsw'
            refine getSession_setting h1.2.1 uid eid sid ?_
            exact hsw'
          · simp only [hstep2, if_false]
            exact h
  | cbSetseller eid =>
    show StInv (cb_setseller s uid eid).1
    unfold cb_setseller
    cases hge : getEscrow s eid with
    | none => exact h
    | some e =>
      by_cases h1 : uid = e.buyer_id
      · simp only [h1, if_true]
        exact h
      · simp only [h1, if_false]
        by_cases h2 : pyTruthyIntOpt e.seller_id = true
        · simp only [h2, if_true]
          exact h
        · simp only [h2, if_false]
          refine stInv_setSession uid _ ?_ h
          intro eid' sid hsw'
          have h3 : (eid, uid) = (eid', sid) := by
            have : (some (eid, uid) : Option (Nat × Int)) = some (eid', sid) := hsw'
            injection this
          injection h3 with h4 h5
          exact ⟨e, h4 ▸ hge, h5 ▸ h1⟩
  | cbView eid => exact h
  | cbPayaddr eid => exact h
  | cbMarkpaid eid =>
    show StInv (cb_markpaid cfg s uid eid env.now).1
    unfold cb_markpaid
    cases hge : getEscrow s eid with
    | none => exact h
    | some e =>
      dsimp only
      by_cases h1 : uid ≠ e.buyer_id
      · rw [if_pos h1]; exact h
      · rw [if_neg h1]
        by_cases h2 : e.status ≠ "created"
        · rw [if_pos h2]; exact h
        · rw [if_neg h2]
          exact stInv_updEscrow eid _ (fun e _ hE => hE) (fun e => rfl) h
  | cbAdminConfirm eid =>
    show StInv (cb_admin_confirm cfg s uid eid env.now).1
    unfold cb_admin_confirm
    split
    · exact h
    · exact stInv_updEscrow eid _ (fun e _ hE => hE) (fun e => rfl) h
  | cbAdminReject eid =>
    show StInv (cb_admin_reject cfg s uid eid).1
    unfold cb_admin_reject
    split
    · exact h
    · exact stInv_updEscrow eid _ (fun e _ hE => hE) (fun e => rfl) h
  | cbDelivered eid =>
    show StInv (cb_delivered cfg s uid eid).1
    unfold cb_delivered
    split
    · exact h
    · split
      · exact h
      · split
        · exact h
        · exact h
  | cbAdminRelease eid =>
    show StInv (cb_admin_release cfg s uid eid env).1
    by_cases h1 : uid ≠ cfg.adminId
    · unfold cb_admin_release
      rw [if_pos h1]
      exact h
    · cases hge : getEscrow s eid with
      | none =>
        unfold cb_admin_release
        rw [if_neg h1, hge]
        exact h
      | some e =>
        by_cases h2 : (!pyTruthyStrOpt e.seller_wallet) = true
        · unfold cb_admin_release
          rw [if_neg h1, hge]
          dsimp only
          rw [if_pos h2]
          exact h
        · rw [cb_admin_release_eq cfg s uid eid env e h1 hge h2]
          by_cases h3 : releaseOkSpec env.wd = true
          · rw [if_pos h3]
            refine stInv_updEscrow eid _ ?_ (fun e0 => rfl) h
            intro e0 _ hE
            refine ⟨?_, hE.2⟩
            constructor <;> intro _ <;> simp [applyRelease]
          · rw [if_neg h3]
            exact h
  | cbCancel eid =>
    show StInv (cb_cancel cfg s uid eid).1
    unfold cb_cancel
    split
    · exact h
    · split
      · exact h
      · split
        · exact h
        · exact stInv_updEscrow eid _ (fun e _ hE => hE) (fun e => rfl) h

/-- Every reachable store satisfies the invariant. -/
theorem reach_stInv {cfg : Cfg} {s : St} (h : Reach cfg s) : StInv s := by
  induction h with
  | init => exact stInv_init
  | next uid ev env _ ih => exact step_stInv _ _ uid ev env ih

/- ### Lookup characterizations used by the claim theorems -/

theorem getEscrow_updEscrow (s : St) (eid eid' : Nat) (f : Escrow → Escrow) :
    getEscrow (updEscrow s eid f) eid' =
      if eid' = eid then (getEscrow s eid').map f else getEscrow s eid' := by
  simp only [getEscrow, updEscrow]
  exact assocGet_setEscrowRow eid' eid f s.escrows

theorem getEscrow_insertUser (s : St) (uid : Int) (un lg : String) (eid : Nat) :
    getEscrow (insertOrIgnoreUser s uid un lg) eid = getEscrow s eid := by
  unfold insertOrIgnoreUser
  cases assocGet uid s.users <;> rfl

theorem assocGet_mem {α β : Type} [DecidableEq α] {k : α} {v : β}
    {l : List (α × β)} (h : assocGet k l = some v) : (k, v) ∈ l := by
  induction l with
  | nil => cases h
  | cons p rest ih =>
    obtain ⟨a, b⟩ := p
    by_cases h1 : a = k
    · subst h1
      simp only [assocGet, if_pos rfl] at h
      injection h with h2
      subst h2
      exact List.mem_cons_self _ _
    · simp only [assocGet, if_neg h1] at h
      exact List.mem_cons_of_mem _ (ih h)

/-- The AUTOINCREMENT counter never collides with a stored row. -/
theorem nextId_fresh {cfg : Cfg} {s : St} (h : Reach cfg s) :
    assocGet s.nextId s.escrows = none := by
  cases hg : assocGet s.nextId s.escrows with
  | none => rfl
  | some e =>
    have hmem := assocGet_mem hg
    have := (reach_stInv h).2.2 (s.nextId, e) hmem
    exact absurd this (by simp)

/-- A failed or non-200 balance query yields no snapshot. -/
theorem snapshot_none_of_balFails {env : Env} (h : balFails env.bal = true) :
    snapshot_balances env = none := by
  unfold snapshot_balances okx_get_balances httpResult
  cases hb : env.bal with
  | exc m =>
    dsimp only
    rw [if_neg (by decide : ¬ (500 : Nat) = 200)]
  | resp c b =>
    rw [hb] at h
    simp only [balFails] at h
    dsimp only
    rw [if_neg (by simpa using h)]

/- ### Reachability of the concrete run -/

theorem reach_s1 : Reach cfg0 s1 :=
  Reach.next 10 (.newescrow true 7 "buyer") (envAt 1) Reach.init

theorem reach_s2 : Reach cfg0 s2 :=
  Reach.next 10 (.msgText "20") (envAt 2) reach_s1

theorem reach_s3 : Reach cfg0 s3 :=
  Reach.next 10 (.msgText "website work") (envAt 3) reach_s2

theorem reach_s4 : Reach cfg0 s4 :=
  Reach.next 20 (.cbSetseller 1) (envAt 4) reach_s3

theorem reach_s5 : Reach cfg0 s5 :=
  Reach.next 20 (.msgText "TSellerWalletAddr1234567890x") (envAt 5) reach_s4

theorem reach_s6 : Reach cfg0 s6 :=
  Reach.next 10 (.cbMarkpaid 1) (envAt 6) reach_s5

theorem reach_s7 : Reach cfg0 s7 :=
  Reach.next 99 (.cbAdminConfirm 1) (envAt 7) reach_s6

theorem reach_s8 : Reach cfg0 s8 :=
  Reach.next 99 (.cbAdminRelease 1) (wdOkEnv 8 "w1") reach_s7

theorem reach_t7 : Reach cfg0 t7 :=
  Reach.next 30 (.msgText "WalletB_bbbbbbbbbbbbbbbbbb") (envAt 7)
    (Reach.next 20 (.msgText "WalletA_aaaaaaaaaaaaaaaaaa") (envAt 6)
      (Reach.next 30 (.cbSetseller 1) (envAt 5)
        (Reach.next 20 (.cbSetseller 1) (envAt 4) reach_s3)))

/- ### Claim theorems -/

/-- C1, counterexample: statuses do not only move forward.  In the reachable
    run, escrow #1 is `paid` in `s6`; one `admin_reject_` event moves it back
    to `created`, which is not a forward edge of the §4.1 graph. -/
theorem C1_counterexample :
    (getEscrow s6 1).map Escrow.status = some "paid" ∧
    (getEscrow (step cfg0 s6 99 (.cbAdminReject 1) (envAt 9)).1 1).map Escrow.status =
      some "created" ∧
    statusStepB "paid" "created" = false ∧ ¬ ("created" = "paid") :=
  ⟨rfl, rfl, by decide, by decide⟩

/-- C2: applying `admin_release` twice is not one state change plus a no-op.
    The branch never checks the current status, so the second invocation on
    the already-released escrow #1 issues a second withdrawal POST and
    overwrites `okx_tx_id` and `released_at` — two state changes and a double
    payment. -/
theorem C2_double_release :
    (step cfg0 s7 99 (.cbAdminRelease 1) (wdOkEnv 8 "w1")).2.withdrawCalls.length = 1 ∧
    (getEscrow s8 1).map Escrow.status = some "released" ∧
    (getEscrow s8 1).map Escrow.okx_tx_id = some (some "w1") ∧
    (step cfg0 s8 99 (.cbAdminRelease 1) (wdOkEnv 9 "w2")).2.withdrawCalls.length = 1 ∧
    (getEscrow (step cfg0 s8 99 (.cbAdminRelease 1) (wdOkEnv 9 "w2")).1 1).map Escrow.okx_tx_id =
      some (some "w2") ∧
    (getEscrow (step cfg0 s8 99 (.cbAdminRelease 1) (wdOkEnv 9 "w2")).1 1).map Escrow.released_at =
      some (some 9) :=
  ⟨rfl, rfl, rfl, rfl, rfl, rfl⟩

/-- C3, counterexample: the release commits without a positively observed
    body-level success indicator.  An HTTP 200 response whose body `\x7b\x7d`
    carries no `code` field at all still transitions escrow #1 to `released`
    (with the `"manual"` sentinel), because `res.get("code") in (None, "0")`
    accepts the absent field. -/
theorem C3_counterexample :
    assocGet "code" ([] : List (String × JsonVal)) = none ∧
    (getEscrow (step cfg0 s7 99 (.cbAdminRelease 1)
        ⟨8, .exc "x", .resp 200 (.obj [])⟩).1 1).map Escrow.status = some "released" ∧
    (getEscrow (step cfg0 s7 99 (.cbAdminRelease 1)
        ⟨8, .exc "x", .resp 200 (.obj [])⟩).1 1).map Escrow.okx_tx_id =
      some (some "manual") :=
  ⟨rfl, rfl, rfl⟩

/-- C4, counterexample: `okx_tx_id` non-null is not equivalent to
    `status = released` over reachable records.  After the release of escrow
    #1 (`s8`), one unguarded `admin_confirm_` event moves the status back to
    `confirmed` while the tx reference stays `w1`. -/
theorem C4_counterexample :
    (getEscrow s9 1).map Escrow.status = some "confirmed" ∧
    (getEscrow s9 1).map Escrow.okx_tx_id = some (some "w1") :=
  ⟨rfl, rfl⟩

/-- C5, counterexample: `admin_confirm` runs no balance reconciliation.  Two
    confirmation events that differ only in the balance the exchange would
    report (one satisfying `current >= previous + amount`, one not — the
    very §4.3/§8 pair 150 vs 120 against 100 + 50) produce byte-identical
    states and outputs, while the reconciler the claim describes must
    distinguish them. -/
theorem C5_counterexample :
    step cfg0 s6 99 (.cbAdminConfirm 1) ⟨7, .resp 200 (balRich "150"), .exc "x"⟩ =
      step cfg0 s6 99 (.cbAdminConfirm 1) ⟨7, .resp 200 (balRich "120"), .exc "x"⟩ ∧
    reconcile (some (balRich "100")) (some (balRich "150")) ⟨50, 0⟩ = .deposit_confirmed ∧
    reconcile (some (balRich "100")) (some (balRich "120")) ⟨50, 0⟩ = .deposit_not_detected :=
  ⟨rfl, by decide, by decide⟩

/-- C6, counterexample: the extraction searches no entry-level aliases and is
    not exception-free.  On a payload whose balance sits at entry level the
    spec-worded search finds `42` but `find_usdt_balance` returns unknown;
    and a non-dict detail record makes `d.get("ccy", "")` raise
    AttributeError instead of returning unknown. -/
theorem C6_counterexample :
    specBalanceExtract (.obj [("data", .arr [.obj [("availBal", .str "42"),
        ("details", .arr [])]])]) = some ⟨42, 0⟩ ∧
    find_usdt_balance (.obj [("data", .arr [.obj [("availBal", .str "42"),
        ("details", .arr [])]])]) = .ok none ∧
    find_usdt_balance (.obj [("data", .arr [.obj [("details", .arr [.str "x"])]])]) =
      .error "AttributeError" :=
  ⟨by decide, rfl, rfl⟩

/-- C7, counterexample: the request does not carry exactly four headers.
    `okx_headers` always attaches a fifth `Content-Type: application/json`
    header besides the four signed ones. -/
theorem C7_counterexample :
    ((okx_headers "KEY" "SECRET" "PASS" "1700000000.0" "GET"
        "/api/v5/account/balance" none).1.map Prod.fst =
      ["OK-ACCESS-KEY", "OK-ACCESS-SIGN", "OK-ACCESS-TIMESTAMP",
       "OK-ACCESS-PASSPHRASE", "Content-Type"]) ∧
    ¬ ((okx_headers "KEY" "SECRET" "PASS" "1700000000.0" "GET"
        "/api/v5/account/balance" none).1.map Prod.fst =
      ["OK-ACCESS-KEY", "OK-ACCESS-SIGN", "OK-ACCESS-TIMESTAMP",
       "OK-ACCESS-PASSPHRASE"]) := by
  have h5 : (okx_headers "KEY" "SECRET" "PASS" "1700000000.0" "GET"
      "/api/v5/account/balance" none).1.map Prod.fst =
      ["OK-ACCESS-KEY", "OK-ACCESS-SIGN", "OK-ACCESS-TIMESTAMP",
       "OK-ACCESS-PASSPHRASE", "Content-Type"] := rfl
  refine ⟨h5, ?_⟩
  intro h4
  rw [h5] at h4
  exact absurd h4 (by decide)

theorem status_frame {e e' : Escrow} (hh : (some e : Option Escrow) = some e') :
    e'.status = e.status := by
  injection hh with h2
  rw [h2]

/-- C1, amended: the status-guarded handlers (mark-paid, cancel, and the
    non-mutating ones) move a valid status only forward along the §4.1 graph;
    the three status-unguarded admin branches are excluded — in particular
    `admin_reject_` writes `created` into whatever escrow it is pointed at,
    regardless of its current status. -/
theorem C1_amended :
    (∀ (cfg : Cfg) (s : St) (uid : Int) (ev : Ev) (env : Env) (eid : Nat) (e e' : Escrow),
        uncheckedAdminEv ev = false →
        getEscrow s eid = some e →
        getEscrow (step cfg s uid ev env).1 eid = some e' →
        validStatus e.status = true →
        (e'.status = e.status ∨ statusStepB e.status e'.status = true)) ∧
    (∀ (cfg : Cfg) (s : St) (uid : Int) (env : Env) (eid : Nat) (e' : Escrow),
        uid = cfg.adminId →
        getEscrow (step cfg s uid (.cbAdminReject eid) env).1 eid = some e' →
        e'.status = "created") := by
  constructor
  · intro cfg s uid ev env eid e e' hunc hget hget' hval
    cases ev with
    | newescrow g cid un =>
      cases g with
      | false => exact Or.inl (status_frame (hget.symm.trans hget'))
      | true =>
        exact Or.inl (status_frame (hget.symm.trans
          ((getEscrow_insertUser s uid un (get_user_lang s uid) eid).symm.trans hget')))
    | msgText t =>
      have hget2 : getEscrow (text_handler cfg s uid t env).1 eid = some e' := hget'
      simp only [text_handler] at hget2
      cases hsw : (getSession s uid).setting_wallet with
      | some p =>
        obtain ⟨eid0, sid0⟩ := p
        rw [hsw] at hget2
        dsimp only at hget2
        by_cases hlen : strLen (pyStrip t) < 20 || 50 < strLen (pyStrip t)
        · rw [if_pos hlen] at hget2
          exact Or.inl (status_frame (hget.symm.trans hget2))
        · rw [if_neg hlen] at hget2
          have hup : getEscrow (updEscrow s eid0 (fun e0 =>
              { e0 with seller_id := some sid0, seller_wallet := some (pyStrip t) })) eid =
              some e' := hget2
          rw [getEscrow_updEscrow] at hup
          by_cases hc : eid = eid0
          · rw [if_pos hc, hget] at hup
            simp only [Option.map_some'] at hup
            injection hup with h3
            left
            rw [← h3]
          · rw [if_neg hc] at hup
            exact Or.inl (status_frame (hget.symm.trans hup))
      | none =>
        rw [hsw] at hget2
        dsimp only at hget2
        cases hcr : (getSession s uid).creating_escrow with
        | none =>
          rw [hcr] at hget2
          dsimp only at hget2
          exact Or.inl (status_frame (hget.symm.trans hget2))
        | some cd =>
          rw [hcr] at hget2
          dsimp only at hget2
          by_cases h1 : cd.step = "amount"
          · rw [if_pos h1] at hget2
            cases hsd : safe_decimal (pyStrip t) with
            | none =>
              rw [hsd] at hget2
              exact Or.inl (status_frame (hget.symm.trans hget2))
            | some amount =>
              rw [hsd] at hget2
              dsimp only at hget2
              by_cases h2 : amount.isNonPos = true
              · rw [if_pos h2] at hget2
                exact Or.inl (status_frame (hget.symm.trans hget2))
              · rw [if_neg h2] at hget2
                exact Or.inl (status_frame (hget.symm.trans hget2))
          · rw [if_neg h1] at hget2
            by_cases h2 : cd.step = "description"
            · rw [if_pos h2] at hget2
              rcases assocGet_append_cases hget2 with h3 | ⟨hnone, _⟩
              · exact Or.inl (status_frame (hget.symm.trans h3))
              · exact Option.noConfusion (hget.symm.trans hnone)
            · rw [if_neg h2] at hget2
              exact Or.inl (status_frame (hget.symm.trans hget2))
    | cbSetseller eid2 =>
      have hget2 : getEscrow (cb_setseller s uid eid2).1 eid = some e' := hget'
      unfold cb_setseller at hget2
      cases hg2 : getEscrow s eid2 with
      | none =>
        rw [hg2] at hget2
        exact Or.inl (status_frame (hget.symm.trans hget2))
      | some e2 =>
        rw [hg2] at hget2
        dsimp only at hget2
        by_cases h1 : uid = e2.buyer_id
        · rw [if_pos h1] at hget2
          exact Or.inl (status_frame (hget.symm.trans hget2))
        · rw [if_neg h1] at hget2
          by_cases h2 : pyTruthyIntOpt e2.seller_id = true
          · rw [if_pos h2] at hget2
            exact Or.inl (status_frame (hget.symm.trans hget2))
          · rw [if_neg h2] at hget2
            exact Or.inl (status_frame (hget.symm.trans hget2))
    | cbView eid2 => exact Or.inl (status_frame (hget.symm.trans hget'))
    | cbPayaddr eid2 => exact Or.inl (status_frame (hget.symm.trans hget'))
    | cbMarkpaid eid2 =>
      have hget2 : getEscrow (cb_markpaid cfg s uid eid2 env.now).1 eid = some e' := hget'
      unfold cb_markpaid at hget2
      cases hg2 : getEscrow s eid2 with
      | none =>
        rw [hg2] at hget2
        exact Or.inl (status_frame (hget.symm.trans hget2))
      | some e2 =>
        rw [hg2] at hget2
        dsimp only at hget2
        by_cases h1 : uid ≠ e2.buyer_id
        · rw [if_pos h1] at hget2
          exact Or.inl (status_frame (hget.symm.trans hget2))
        · rw [if_neg h1] at hget2
          by_cases h2 : e2.status ≠ "created"
          · rw [if_pos h2] at hget2
            exact Or.inl (status_frame (hget.symm.trans hget2))
          · rw [if_neg h2] at hget2
            have hst : e2.status = "created" := not_ne_iff.mp h2
            rw [getEscrow_updEscrow] at hget2
            by_cases hc : eid = eid2
            · rw [if_pos hc, hget] at hget2
              simp only [Option.map_some'] at hget2
              injection hget2 with h3
              have hstat : e'.status = "paid" := by rw [← h3]
              have he : e = e2 := by
                rw [hc] at hget
                rw [hget] at hg2
                injection hg2
              right
              rw [hstat, he, hst]
              decide
            · rw [if_neg hc] at hget2
              exact Or.inl (status_frame (hget.symm.trans hget2))
    | cbAdminConfirm eid2 => exact Bool.noConfusion hunc
    | cbAdminReject eid2 => exact Bool.noConfusion hunc
    | cbAdminRelease eid2 => exact Bool.noConfusion hunc
    | cbDelivered eid2 =>
      have hget2 : getEscrow (cb_delivered cfg s uid eid2).1 eid = some e' := hget'
      unfold cb_delivered at hget2
      cases hg2 : getEscrow s eid2 with
      | none =>
        rw [hg2] at hget2
        exact Or.inl (status_frame (hget.symm.trans hget2))
      | some e2 =>
        rw [hg2] at hget2
        dsimp only at hget2
        by_cases h1 : some uid ≠ e2.seller_id
        · rw [if_pos h1] at hget2
          exact Or.inl (status_frame (hget.symm.trans hget2))
        · rw [if_neg h1] at hget2
          by_cases h2 : e2.status ≠ "confirmed"
          · rw [if_pos h2] at hget2
            exact Or.inl (status_frame (hget.symm.trans hget2))
          · rw [if_neg h2] at hget2
            exact Or.inl (status_frame (hget.symm.trans hget2))
    | cbCancel eid2 =>
      have hget2 : getEscrow (cb_cancel cfg s uid eid2).1 eid = some e' := hget'
      unfold cb_cancel at hget2
      cases hg2 : getEscrow s eid2 with
      | none =>
        rw [hg2] at hget2
        exact Or.inl (status_frame (hget.symm.trans hget2))
      | some e2 =>
        rw [hg2] at hget2
        dsimp only at hget2
        by_cases h1 : uid ≠ e2.buyer_id ∧ uid ≠ cfg.adminId
        · rw [if_pos h1] at hget2
          exact Or.inl (status_frame (hget.symm.trans hget2))
        · rw [if_neg h1] at hget2
          by_cases h2 : e2.status = "released" ∨ e2.status = "cancelled"
          · rw [if_pos h2] at hget2
            exact Or.inl (status_frame (hget.symm.trans hget2))
          · rw [if_neg h2] at hget2
            rw [getEscrow_updEscrow] at hget2
            by_cases hc : eid = eid2
            · rw [if_pos hc, hget] at hget2
              simp only [Option.map_some'] at hget2
              injection hget2 with h3
              have hstat : e'.status = "cancelled" := by rw [← h3]
              have he : e = e2 := by
                rw [hc] at hget
                rw [hget] at hg2
                injection hg2
              have hv : e2.status = "created" ∨ e2.status = "paid" ∨ e2.status = "confirmed" := by
                have hv2 := hval
                rw [he] at hv2
                simp only [validStatus, Bool.or_eq_true, decide_eq_true_eq] at hv2
                rcases hv2 with (((h | h) | h) | h) | h
                · exact Or.inl h
                · exact Or.inr (Or.inl h)
                · exact Or.inr (Or.inr h)
                · exact absurd (Or.inl h) h2
                · exact absurd (Or.inr h) h2
              right
              rw [hstat, he]
              rcases hv with h | h | h <;> rw [h] <;> decide
            · rw [if_neg hc] at hget2
              exact Or.inl (status_frame (hget.symm.trans hget2))
  · intro cfg s uid env eid e' hu hget'
    have hget2 : getEscrow (cb_admin_reject cfg s uid eid).1 eid = some e' := hget'
    unfold cb_admin_reject at hget2
    rw [if_neg (not_ne_iff.mpr hu)] at hget2
    dsimp only at hget2
    rw [getEscrow_updEscrow, if_pos rfl] at hget2
    cases hg : getEscrow s eid with
    | none =>
      rw [hg] at hget2
      exact Option.noConfusion hget2
    | some e0 =>
      rw [hg] at hget2
      simp only [Option.map_some'] at hget2
      injection hget2 with h3
      rw [← h3]

/-- C8, counterexample: `provider_id` can be overwritten.  Users 20 and 30
    both pass the `setseller_` guard while the slot is still empty; the
    wallet submissions then write the seller unconditionally, so user 30's
    submission overwrites user 20's claim (and the wallet with it). -/
theorem C8_counterexample :
    (getEscrow t6 1).map Escrow.seller_id = some (some 20) ∧
    (getEscrow t7 1).map Escrow.seller_id = some (some 30) ∧
    (getEscrow t6 1).map Escrow.seller_wallet = some (some "WalletA_aaaaaaaaaaaaaaaaaa") ∧
    (getEscrow t7 1).map Escrow.seller_wallet = some (some "WalletB_bbbbbbbbbbbbbbbbbb") :=
  ⟨rfl, rfl, rfl, rfl⟩

/-- C3, amended: with the admin acting on an existing escrow with a truthy
    wallet, the escrow is updated (to `released`, with the tx reference and
    release timestamp) exactly when the withdrawal outcome is HTTP status
    exactly 200 with a dict body whose `code` is `"0"` or absent/null (and a
    well-shaped `data` field); on every other outcome — non-200 status,
    body-level error code, transport error, raising body shapes — the store
    is left completely unchanged, so the action stays retryable. -/
theorem C3_amended :
    ∀ (cfg : Cfg) (s : St) (uid : Int) (eid : Nat) (env : Env) (e : Escrow),
      uid = cfg.adminId →
      getEscrow s eid = some e →
      pyTruthyStrOpt e.seller_wallet = true →
      (releaseOkSpec env.wd = false → (step cfg s uid (.cbAdminRelease eid) env).1 = s) ∧
      (releaseOkSpec env.wd = true →
        getEscrow (step cfg s uid (.cbAdminRelease eid) env).1 eid =
          some (applyRelease env.now (releaseTxSpec env.wd) e) ∧
        ∀ eid', eid' ≠ eid →
          getEscrow (step cfg s uid (.cbAdminRelease eid) env).1 eid' = getEscrow s eid') := by
  intro cfg s uid eid env e hu hge hw
  have hu' : ¬ uid ≠ cfg.adminId := not_ne_iff.mpr hu
  have hw' : ¬ (!pyTruthyStrOpt e.seller_wallet) = true := by rw [hw]; decide
  have heq := cb_admin_release_eq cfg s uid eid env e hu' hge hw'
  constructor
  · intro hrel
    show (cb_admin_release cfg s uid eid env).1 = s
    rw [heq, hrel]
    simp only [Bool.false_eq_true, if_false]
  · intro hrel
    constructor
    · show getEscrow (cb_admin_release cfg s uid eid env).1 eid = _
      rw [heq, hrel, if_pos rfl, getEscrow_updEscrow, if_pos rfl, hge]
      rfl
    · intro eid' hne
      show getEscrow (cb_admin_release cfg s uid eid env).1 eid' = getEscrow s eid'
      rw [heq, hrel, if_pos rfl, getEscrow_updEscrow, if_neg hne]

/-- C4, amended: over all reachable stores, the tx reference is non-null iff
    the release timestamp is non-null (they are written together by the one
    successful release and never cleared); the claimed equivalence with
    `status = released` fails because admin_confirm/admin_reject later move
    the status without clearing the reference. -/
theorem C4_amended :
    ∀ (cfg : Cfg) (s : St), Reach cfg s →
      ∀ (eid : Nat) (e : Escrow), getEscrow s eid = some e →
        (e.okx_tx_id ≠ none ↔ e.released_at ≠ none) :=
  fun _ _ h eid e hge => ((reach_stInv h).1 eid e hge).1

/-- C5, amended: `admin_confirm` performs no balance reconciliation at all —
    its entire result (state and output) is independent of the exchange
    responses, and whenever the admin triggers it on an existing escrow it
    unconditionally sets `status = confirmed` and `confirmed_at`; the
    paid → confirmed transition is never blocked. -/
theorem C5_amended :
    (∀ (cfg : Cfg) (s : St) (uid : Int) (eid : Nat) (env env' : Env),
        env.now = env'.now →
        step cfg s uid (.cbAdminConfirm eid) env = step cfg s uid (.cbAdminConfirm eid) env') ∧
    (∀ (cfg : Cfg) (s : St) (uid : Int) (eid : Nat) (env : Env) (e : Escrow),
        uid = cfg.adminId →
        getEscrow s eid = some e →
        getEscrow (step cfg s uid (.cbAdminConfirm eid) env).1 eid =
          some { e with status := "confirmed", confirmed_at := some env.now }) := by
  constructor
  · intro cfg s uid eid env env' hnow
    show cb_admin_confirm cfg s uid eid env.now = cb_admin_confirm cfg s uid eid env'.now
    rw [hnow]
  · intro cfg s uid eid env e hu hge
    show getEscrow (cb_admin_confirm cfg s uid eid env.now).1 eid = _
    unfold cb_admin_confirm
    rw [if_neg (not_ne_iff.mpr hu)]
    dsimp only
    rw [getEscrow_updEscrow, if_pos rfl, hge]
    rfl

/-- C8, amended: a recorded seller never equals the escrow's buyer in any
    reachable store, and the `setseller_` button itself never writes the
    escrows table (it only records a pending session); but the subsequent
    wallet submission writes the seller unconditionally, so the slot can be
    overwritten by a second claimer (see the counterexample). -/
theorem C8_amended :
    (∀ (cfg : Cfg) (s : St), Reach cfg s →
      ∀ (eid : Nat) (e : Escrow) (sid : Int),
        getEscrow s eid = some e → e.seller_id = some sid → sid ≠ e.buyer_id) ∧
    (∀ (cfg : Cfg) (s : St) (uid : Int) (eid : Nat) (env : Env),
      (step cfg s uid (.cbSetseller eid) env).1.escrows = s.escrows) := by
  constructor
  · intro cfg s h eid e sid hge hs
    exact ((reach_stInv h).1 eid e hge).2 sid hs
  · intro cfg s uid eid env
    show (cb_setseller s uid eid).1.escrows = s.escrows
    unfold cb_setseller
    cases getEscrow s eid with
    | none => rfl
    | some e =>
      dsimp only
      by_cases h1 : uid = e.buyer_id
      · rw [if_pos h1]
      · rw [if_neg h1]
        by_cases h2 : pyTruthyIntOpt e.seller_id = true
        · rw [if_pos h2]
        · rw [if_neg h2]
          rfl

theorem scanDetails_cons (d : JsonVal) (rest : List JsonVal) :
    scanDetails (d :: rest) =
      match detailVerdict d with
      | .error m => .error m
      | .ok (some r) => .ok (some r)
      | .ok none => scanDetails rest := rfl

theorem scanEntries_cons (e : JsonVal) (rest : List JsonVal) :
    scanEntries (e :: rest) =
      match entryVerdict e with
      | .error m => .error m
      | .ok (some r) => .ok (some r)
      | .ok none => scanEntries rest := rfl

/-- The scan of a concatenated detail stream: the left part decides unless it
    falls through. -/
theorem scanDetails_append (xs ys : List JsonVal) :
    scanDetails (xs ++ ys) =
      match scanDetails xs with
      | .ok none => scanDetails ys
      | .ok (some r) => .ok (some r)
      | .error m => .error m := by
  induction xs with
  | nil => rfl
  | cons d rest ih =>
    rw [List.cons_append, scanDetails_cons, scanDetails_cons d rest]
    cases detailVerdict d with
    | error m => rfl
    | ok r =>
      cases r with
      | some v => rfl
      | none => exact ih

/-- The entry loop equals one scan over the flattened detail stream. -/
theorem scanEntries_flatten (entries : List JsonVal) :
    scanEntries entries = scanDetails ((entries.filterMap entryDetails).flatten) := by
  induction entries with
  | nil => rfl
  | cons e rest ih =>
    rw [scanEntries_cons, List.filterMap_cons]
    cases hed : entryDetails e with
    | none =>
      have hv : entryVerdict e = .ok none := by unfold entryVerdict; rw [hed]
      rw [hv]
      dsimp only
      exact ih
    | some ds =>
      have hv : entryVerdict e = scanDetails ds := by unfold entryVerdict; rw [hed]
      rw [hv]
      dsimp only
      rw [List.flatten_cons, scanDetails_append]
      cases scanDetails ds with
      | error m => rfl
      | ok r =>
        cases r with
        | some v => rfl
        | none => exact ih

/-- C6, amended: `find_usdt_balance` consults nothing but the flattened
    detail records — it never reads entry-level aliases or other asset-named
    keys; its result is exactly the single left-to-right scan of the detail
    stream (first USDT record with a truthy `availBal`-else-`cashBal` value
    decides, parsing with `safe_decimal` — unparseable means unknown), and it
    raises (rather than returning unknown) exactly when that scan hits a
    non-dict detail record or a non-string `ccy` value first. -/
theorem C6_amended :
    ∀ j : JsonVal, find_usdt_balance j = collapseScan (scanDetails (collectDetails j)) := by
  intro j
  cases j with
  | obj fs =>
    unfold find_usdt_balance collectDetails
    dsimp only
    cases hdt : (if pyTruthy ((assocGet "data" fs).getD .null) = true
        then (assocGet "data" fs).getD .null else .arr []) with
    | arr entries =>
      dsimp only
      rw [scanEntries_flatten]
      cases scanDetails ((entries.filterMap entryDetails).flatten) with
      | error m => rfl
      | ok r => cases r <;> rfl
    | null => rfl
    | bool b => rfl
    | num n => rfl
    | str sv => rfl
    | obj l => rfl
  | null => rfl
  | bool b => rfl
  | num n => rfl
  | str sv => rfl
  | arr l => rfl

/-- C7, amended: the signature is the Base64 encoding of HMAC-SHA256 keyed by
    the secret over `timestamp ++ method.upper() ++ request_path ++ body`,
    with `body` the JSON-serialized payload (empty for an absent or falsy
    payload); being a pure function of that tuple it is deterministic and
    byte-for-byte reproducible; and the request carries the four signed
    headers — API key, signature, the identical timestamp string, passphrase
    — plus a fifth `Content-Type: application/json` header. -/
theorem C7_amended :
    ∀ (apiKey secret passphrase ts method request_path : String) (body : Option JsonVal),
      (okx_headers apiKey secret passphrase ts method request_path body).2 =
        (match body with
         | some b => if pyTruthy b then jsonDump b else ""
         | none => "") ∧
      (okx_headers apiKey secret passphrase ts method request_path body).1 =
        [("OK-ACCESS-KEY", apiKey),
         ("OK-ACCESS-SIGN", base64Encode (hmacSha256 (utf8Encode secret)
            (utf8Encode (ts ++ pyUpper method ++ request_path ++
              (okx_headers apiKey secret passphrase ts method request_path body).2)))),
         ("OK-ACCESS-TIMESTAMP", ts),
         ("OK-ACCESS-PASSPHRASE", passphrase),
         ("Content-Type", "application/json")] :=
  fun _ _ _ _ _ _ _ => ⟨rfl, rfl⟩

/-- C9: when the balance query at creation time fails at the transport level
    or returns a non-200 status, the escrow is still inserted normally — with
    the submitted description, `status = created` and a NULL
    `deposit_snapshot` — and the (spec-modelled) reconciler later returns
    `inconclusive` for any escrow whose stored snapshot is missing. -/
theorem C9_confirmed :
    ∀ (cfg : Cfg) (s : St) (uid : Int) (t : String) (env : Env) (cd : CreatingEscrow),
      Reach cfg s →
      (getSession s uid).setting_wallet = none →
      (getSession s uid).creating_escrow = some cd →
      cd.step = "description" →
      balFails env.bal = true →
      (getEscrow (step cfg s uid (.msgText t) env).1 s.nextId =
        some { chat_id := cd.chat_id, buyer_id := cd.buyer_id,
               amount := cd.amount.getD "", description := some (strTake (pyStrip t) 200),
               status := "created", created_at := env.now, deposit_snapshot := none } ∧
      (∀ (cur : Option JsonVal) (amount : PyDecimal),
        reconcile none cur amount = .inconclusive)) := by
  intro cfg s uid t env cd hreach hsw hcr hstep hbal
  constructor
  · have hfresh := nextId_fresh hreach
    show getEscrow (text_handler cfg s uid t env).1 s.nextId = _
    simp only [text_handler]
    rw [hsw]
    dsimp only
    rw [hcr]
    dsimp only
    rw [if_neg (by rw [hstep]; decide), if_pos hstep]
    show assocGet s.nextId (s.escrows ++ _) = _
    rw [assocGet_append_of_none _ hfresh]
    simp only [assocGet, if_pos]
    rw [snapshot_none_of_balFails hbal]
  · intro cur amount
    unfold reconcile
    cases extractBal cur <;> rfl

/-- C10: a wallet submission touches, at most, the target escrow's
    `seller_id` and `seller_wallet` — for every escrow row, the status,
    amount, currency, description, creation/paid/confirmed/release
    timestamps, tx reference, deposit snapshot, buyer and chat are unchanged,
    and every row other than the session's target is unchanged entirely. -/
theorem C10_frame :
    ∀ (cfg : Cfg) (s : St) (uid : Int) (t : String) (env : Env) (eid0 : Nat) (sid : Int),
      (getSession s uid).setting_wallet = some (eid0, sid) →
      ∀ (eid : Nat) (e e' : Escrow),
        getEscrow s eid = some e →
        getEscrow (step cfg s uid (.msgText t) env).1 eid = some e' →
        (e'.status = e.status ∧ e'.amount = e.amount ∧ e'.currency = e.currency ∧
         e'.description = e.description ∧ e'.created_at = e.created_at ∧
         e'.paid_at = e.paid_at ∧ e'.confirmed_at = e.confirmed_at ∧
         e'.released_at = e.released_at ∧ e'.okx_tx_id = e.okx_tx_id ∧
         e'.deposit_snapshot = e.deposit_snapshot ∧ e'.buyer_id = e.buyer_id ∧
         e'.chat_id = e.chat_id ∧ (eid ≠ eid0 → e' = e)) := by
  intro cfg s uid t env eid0 sid hsw eid e e' hget hget'
  have hget2 : getEscrow (text_handler cfg s uid t env).1 eid = some e' := hget'
  simp only [text_handler] at hget2
  rw [hsw] at hget2
  dsimp only at hget2
  by_cases hlen : strLen (pyStrip t) < 20 || 50 < strLen (pyStrip t)
  · rw [if_pos hlen] at hget2
    have hh := hget.symm.trans hget2
    injection hh with h2
    subst h2
    exact ⟨rfl, rfl, rfl, rfl, rfl, rfl, rfl, rfl, rfl, rfl, rfl, rfl, fun _ => rfl⟩
  · rw [if_neg hlen] at hget2
    have hup : getEscrow (updEscrow s eid0 (fun e0 =>
        { e0 with seller_id := some sid, seller_wallet := some (pyStrip t) })) eid =
        some e' := hget2
    rw [getEscrow_updEscrow] at hup
    by_cases hc : eid = eid0
    · rw [if_pos hc, hget] at hup
      simp only [Option.map_some'] at hup
      injection hup with h3
      subst h3
      refine ⟨rfl, rfl, rfl, rfl, rfl, rfl, rfl, rfl, rfl, rfl, rfl, rfl, ?_⟩
      intro hne
      exact absurd hc hne
    · rw [if_neg hc] at hup
      have hh := hget.symm.trans hup
      injection hh with h2
      subst h2
      exact ⟨rfl, rfl, rfl, rfl, rfl, rfl, rfl, rfl, rfl, rfl, rfl, rfl, fun _ => rfl⟩

theorem C1_amended_witness :
    (e6.status = e5.status ∨ statusStepB e5.status e6.status = true) ∧
    ({ e6 with status := "created" } : Escrow).status = "created" :=
  ⟨C1_amended.1 cfg0 s5 10 (.cbMarkpaid 1) (envAt 6) 1 e5 e6 rfl rfl rfl rfl,
   C1_amended.2 cfg0 s6 99 (envAt 9) 1 { e6 with status := "created" } rfl rfl⟩

theorem C3_amended_witness :
    (releaseOkSpec (wdOkEnv 8 "w1").wd = false →
      (step cfg0 s7 99 (.cbAdminRelease 1) (wdOkEnv 8 "w1")).1 = s7) ∧
    (releaseOkSpec (wdOkEnv 8 "w1").wd = true →
      getEscrow (step cfg0 s7 99 (.cbAdminRelease 1) (wdOkEnv 8 "w1")).1 1 =
        some (applyRelease (wdOkEnv 8 "w1").now (releaseTxSpec (wdOkEnv 8 "w1").wd) e7) ∧
      ∀ eid', eid' ≠ 1 →
        getEscrow (step cfg0 s7 99 (.cbAdminRelease 1) (wdOkEnv 8 "w1")).1 eid' =
          getEscrow s7 eid') :=
  C3_amended cfg0 s7 99 1 (wdOkEnv 8 "w1") e7 rfl rfl rfl

theorem C4_amended_witness :
    (e3.okx_tx_id ≠ none ↔ e3.released_at ≠ none) :=
  C4_amended cfg0 s3 reach_s3 1 e3 rfl

theorem C5_amended_witness :
    step cfg0 s6 99 (.cbAdminConfirm 1) (envAt 7) =
      step cfg0 s6 99 (.cbAdminConfirm 1) ⟨7, .resp 200 (balRich "150"), .exc "x"⟩ ∧
    getEscrow (step cfg0 s6 99 (.cbAdminConfirm 1) (envAt 7)).1 1 =
      some { e6 with status := "confirmed", confirmed_at := some 7 } :=
  ⟨C5_amended.1 cfg0 s6 99 1 (envAt 7) ⟨7, .resp 200 (balRich "150"), .exc "x"⟩ rfl,
   C5_amended.2 cfg0 s6 99 1 (envAt 7) e6 rfl rfl⟩

theorem C8_amended_witness :
    ((30 : Int) ≠ e_t7.buyer_id) ∧
    (step cfg0 s3 20 (.cbSetseller 1) (envAt 4)).1.escrows = s3.escrows :=
  ⟨C8_amended.1 cfg0 t7 reach_t7 1 e_t7 30 rfl rfl,
   C8_amended.2 cfg0 s3 20 1 (envAt 4)⟩

theorem C9_confirmed_witness :
    (getEscrow (step cfg0 s2 10 (.msgText "website work") (envAt 3)).1 s2.nextId =
      some { chat_id := cd2.chat_id, buyer_id := cd2.buyer_id,
             amount := cd2.amount.getD "",
             description := some (strTake (pyStrip "website work") 200),
             status := "created", created_at := (envAt 3).now,
             deposit_snapshot := none } ∧
    (∀ (cur : Option JsonVal) (amount : PyDecimal),
      reconcile none cur amount = .inconclusive)) :=
  C9_confirmed cfg0 s2 10 "website work" (envAt 3) cd2 reach_s2 rfl rfl rfl rfl

theorem C10_frame_witness :
    (e5.status = e3.status ∧ e5.amount = e3.amount ∧ e5.currency = e3.currency ∧
     e5.description = e3.description ∧ e5.created_at = e3.created_at ∧
     e5.paid_at = e3.paid_at ∧ e5.confirmed_at = e3.confirmed_at ∧
     e5.released_at = e3.released_at ∧ e5.okx_tx_id = e3.okx_tx_id ∧
     e5.deposit_snapshot = e3.deposit_snapshot ∧ e5.buyer_id = e3.buyer_id ∧
     e5.chat_id = e3.chat_id ∧ ((1 : Nat) ≠ 1 → e5 = e3)) :=
  C10_frame cfg0 s4 20 "TSellerWalletAddr1234567890x" (envAt 5) 1 20 rfl 1 e3 e5 rfl rfl
